import Mathlib

/-!
Verification of the natural-language specification of `swapi.py` against a
shallow embedding of the code in Lean 4.

Modelling conventions:
* Python scalar values are modelled by `PyVal`; Python `float` is modelled as
  `Rat` (the program only ever produces decimal literals parsed from strings,
  which are exact rationals).
* Python `dict`s with string keys (episode records, CSV/JSON rows, object
  attribute tables) are modelled as association lists `Dict` preserving
  insertion order, exactly as CPython dicts do.  Every list value manipulated
  by the program is a list of strings (the `convert_to_list` results and the
  writer/climate/terrain/armament/equipment fields), so `PyVal.list` carries
  `List String`.
* Fallible operations (`data[key]`, `int(...)`, `getattr`, comparisons that can
  raise `TypeError`) return `Except String _`; an `Except.error` models an
  uncaught Python exception.
* The helper module `sw_utils` (imported as `utl`) is not part of the source
  tree; its conversion helpers are modelled from the specification and from the
  behavioural comments in `main` (see the individual doc comments).
-/

deriving instance DecidableEq for Except

inductive PyVal where
  | none : PyVal
  | bool (b : Bool) : PyVal
  | int (n : Int) : PyVal
  | float (q : Rat) : PyVal
  | str (s : String) : PyVal
  | list (xs : List String) : PyVal
deriving DecidableEq, Repr

/-- A Python dict with string keys, as an insertion-ordered association list. -/
abbrev Dict := List (String × PyVal)

/-- An attribute value of a `Person` object: either a plain value or a nested
dictionary (the serialized homeworld `Planet`). -/
inductive AVal where
  | v (x : PyVal) : AVal
  | d (x : Dict) : AVal
deriving DecidableEq, Repr

/-- An object whose attributes may hold nested dictionaries (`Person`). -/
abbrev Obj := List (String × AVal)

/-- `d[k]` on a string-keyed dict: the value at the first matching key, or a
`KeyError`. -/
def dictGet : Dict → String → Except String PyVal
  | [], k => .error ("KeyError: " ++ k)
  | (k2, v) :: rest, k => if k2 = k then .ok v else dictGet rest k

/-- `d[k] = v`: replace the value at an existing key in place, else append. -/
def dictSet : Dict → String → PyVal → Dict
  | [], k, v => [(k, v)]
  | (k2, v2) :: rest, k, v =>
    if k2 = k then (k2, v) :: rest else (k2, v2) :: dictSet rest k v

/-- `getattr(o, a)` on an `Obj`: `AttributeError` when absent. -/
def objGet : Obj → String → Except String AVal
  | [], a => .error ("AttributeError: " ++ a)
  | (a2, v) :: rest, a => if a2 = a then .ok v else objGet rest a

/-- `setattr(o, a, v)` on an `Obj`. -/
def objSet : Obj → String → AVal → Obj
  | [], a, v => [(a, v)]
  | (a2, v2) :: rest, a, v =>
    if a2 = a then (a2, v) :: rest else (a2, v2) :: objSet rest a v

/-- `xs[i]` on a list: `IndexError` when out of range. -/
def listGet : List α → Nat → Except String α
  | [], _ => .error "IndexError: list index out of range"
  | x :: _, 0 => .ok x
  | _ :: rest, n + 1 => listGet rest n

/- ### Kernel-computable character/string helpers
Core `String` functions (`trim`, `toLower`, `splitOn`, `toInt?`) are defined by
well-founded recursion over byte positions and do not reduce in the kernel, so
the embedding uses its own structurally recursive versions over `List Char`. -/

/-- ASCII whitespace test (the characters `str.strip` removes in the data at
hand). -/
def isWSChar (c : Char) : Bool :=
  c = ' ' || c = '\t' || c = '\n' || c = '\r'

/-- ASCII lower-casing of a single character. -/
def lowerChar (c : Char) : Char :=
  match c with
  | 'A' => 'a' | 'B' => 'b' | 'C' => 'c' | 'D' => 'd' | 'E' => 'e' | 'F' => 'f'
  | 'G' => 'g' | 'H' => 'h' | 'I' => 'i' | 'J' => 'j' | 'K' => 'k' | 'L' => 'l'
  | 'M' => 'm' | 'N' => 'n' | 'O' => 'o' | 'P' => 'p' | 'Q' => 'q' | 'R' => 'r'
  | 'S' => 's' | 'T' => 't' | 'U' => 'u' | 'V' => 'v' | 'W' => 'w' | 'X' => 'x'
  | 'Y' => 'y' | 'Z' => 'z' | c => c

/-- `cs` with leading and trailing whitespace removed. -/
def trimChars (cs : List Char) : List Char :=
  ((cs.dropWhile isWSChar).reverse.dropWhile isWSChar).reverse

/-- `s.strip()`. -/
def strTrim (s : String) : String := String.mk (trimChars s.data)

/-- `s.lower()`. -/
def strLower (s : String) : String := String.mk (s.data.map lowerChar)

/-- The numeric value of a decimal digit character. -/
def digitVal (c : Char) : Option Nat :=
  if 48 ≤ c.toNat ∧ c.toNat ≤ 57 then some (c.toNat - 48) else Option.none

def digitsToNatAux : List Char → Nat → Option Nat
  | [], acc => some acc
  | c :: cs, acc =>
    match digitVal c with
    | some d => digitsToNatAux cs (acc * 10 + d)
    | Option.none => Option.none

/-- The value of a non-empty all-digit character sequence. -/
def digitsToNat : List Char → Option Nat
  | [] => Option.none
  | cs => digitsToNatAux cs 0

/-- Like `digitsToNat` but the empty sequence counts as `0` (for the integral
or fractional half of a decimal literal such as `"1."` or `".5"`). -/
def digitsToNatOrEmpty : List Char → Option Nat
  | [] => some 0
  | cs => digitsToNat cs

/-- Splits the character sequence at the first `'.'`, if any. -/
def breakDot : List Char → List Char × Option (List Char)
  | [] => ([], Option.none)
  | c :: rest =>
    if c = '.' then ([], some rest)
    else
      let (a, b) := breakDot rest
      (c :: a, b)

/-- The value of an unsigned decimal literal (`"12"`, `"1.5"`, `"1."`, `".5"`). -/
def parseUnsignedFloat (cs : List Char) : Option Rat :=
  match breakDot cs with
  | (ip, Option.none) => (digitsToNat ip).map (fun n => mkRat (Int.ofNat n) 1)
  | (ip, some fp) =>
    if fp.any (fun c => c = '.') then Option.none
    else if ip = [] && fp = [] then Option.none
    else
      match digitsToNatOrEmpty ip, digitsToNatOrEmpty fp with
      | some a, some b =>
        some (mkRat (Int.ofNat (a * 10 ^ fp.length + b)) (10 ^ fp.length))
      | _, _ => Option.none

/-- The value of a signed decimal literal, as accepted by Python `float()`
(scientific notation and `inf`/`nan`, which the data never contains, are not
modelled). -/
def parseFloatChars (cs : List Char) : Option Rat :=
  match trimChars cs with
  | '-' :: rest => (parseUnsignedFloat rest).map (fun q => mkRat (-q.num) q.den)
  | '+' :: rest => parseUnsignedFloat rest
  | rest => parseUnsignedFloat rest

/-- The value of a signed integer literal, as accepted by Python `int()`. -/
def parseIntChars (cs : List Char) : Option Int :=
  match trimChars cs with
  | '-' :: rest => (digitsToNat rest).map (fun n => -(Int.ofNat n))
  | '+' :: rest => (digitsToNat rest).map Int.ofNat
  | rest => (digitsToNat rest).map Int.ofNat

/-- Whether the first list is an initial segment of the second. -/
def leadsWith : List Char → List Char → Bool
  | [], _ => true
  | _ :: _, [] => false
  | a :: as2, b :: bs => a = b && leadsWith as2 bs

/-- Splitting a character list on a non-empty separator, with enough fuel;
mirrors `str.split(sep)`. -/
def splitOnFuel (sep : List Char) : Nat → List Char → List Char → List (List Char)
  | _, [], acc => [acc.reverse]
  | 0, cs, acc => [acc.reverse ++ cs]
  | n + 1, c :: cs, acc =>
    if leadsWith sep (c :: cs) then
      acc.reverse :: splitOnFuel sep n (List.drop (sep.length - 1) cs) []
    else
      splitOnFuel sep n cs (c :: acc)

/-- `s.split(sep)` for a non-empty separator string. -/
def strSplitOn (s sep : String) : List String :=
  (splitOnFuel sep.data s.data.length s.data []).map String.mk

/- ### The `sw_utils` conversion helpers (not in the source tree) -/

/-- Modelled from the spec: `utl.convert_to_none` from the missing `sw_utils`
module.  Per the spec, conversion helpers "silently fall back to the original
value (or `None`) on conversion failure instead of raising"; per the comments
in `main`, `convert_to_none('Unknown')` returns `None`, `convert_to_none('Yoda')`
and non-string values are returned unchanged, and per the docstring of
`convert_episode_values` all blank or empty values map to `None`.  A string is
normalized to `None` when its stripped, lower-cased form is one of the
placeholder values; every other value is returned unchanged. -/
def convert_to_none (v : PyVal) : PyVal :=
  match v with
  | .str s => if strLower (strTrim s) ∈ ["", "n/a", "none", "unknown"] then .none else .str s
  | v => v

/-- The Python builtin `float(...)`: numeric values are widened, strings are
parsed as decimal literals, everything else raises. -/
def pyFloat (v : PyVal) : Except String Rat :=
  match v with
  | .int n => .ok (mkRat n 1)
  | .float q => .ok q
  | .bool b => .ok (mkRat (if b then 1 else 0) 1)
  | .str s =>
    match parseFloatChars s.data with
    | some q => .ok q
    | Option.none => .error "ValueError: could not convert string to float"
  | _ => .error "TypeError: float() argument"

/-- Truncation of a rational toward zero, the behaviour of Python `int()` on a
`float`. -/
def ratTrunc (q : Rat) : Int :=
  if q.num < 0 then -(Int.ofNat ((-q.num).toNat / q.den)) else Int.ofNat (q.num.toNat / q.den)

/-- The Python builtin `int(...)`: ints pass through, floats truncate toward
zero, strings are parsed as integer literals, everything else raises
(`int(None)` is a `TypeError`). -/
def pyInt (v : PyVal) : Except String Int :=
  match v with
  | .int n => .ok n
  | .float q => .ok (ratTrunc q)
  | .bool b => .ok (if b then 1 else 0)
  | .str s =>
    match parseIntChars s.data with
    | some n => .ok n
    | Option.none => .error "ValueError: invalid literal for int()"
  | _ => .error "TypeError: int() argument"

/-- Modelled from the spec: `utl.convert_to_float` from the missing `sw_utils`
module.  Per the spec and the comments in `main` (`convert_to_float('506')`
converts, `convert_to_float('unknown')` and `convert_to_float([506, 507])` are
returned unchanged), it returns `float(value)` and silently falls back to the
original value when the conversion raises. -/
def convert_to_float (v : PyVal) : PyVal :=
  match pyFloat v with
  | .ok q => .float q
  | .error _ => v

/-- Modelled from the spec: `utl.convert_to_int` from the missing `sw_utils`
module.  Returns `int(value)` and silently falls back to the original value
when the conversion raises. -/
def convert_to_int (v : PyVal) : PyVal :=
  match pyInt v with
  | .ok n => .int n
  | .error _ => v

/-- Modelled from the spec: `utl.convert_to_list` from the missing `sw_utils`
module.  Returns `value.split(delimiter)` and silently falls back to the
original value when the conversion raises (non-strings have no `split`). -/
def convert_to_list (v : PyVal) (delimiter : String) : PyVal :=
  match v with
  | .str s => .list (strSplitOn s delimiter)
  | v => v

/-- Modelled from the spec: `utl.convert_gravity_value` from the missing
`sw_utils` module.  Per the comments in `main`, `'1 standard'` converts to
`1.0` and `'1.56'` to `1.56`, while a list is returned unchanged: the value's
first whitespace-separated token is converted to float, falling back to the
original value when that raises. -/
def convert_gravity_value (v : PyVal) : PyVal :=
  match v with
  | .str s =>
    match (strSplitOn (strTrim s) " ").filter (fun t => t ≠ "") with
    | tok :: _ =>
      match parseFloatChars tok.data with
      | some q => .float q
      | Option.none => .str s
    | [] => .str s
  | v => v

/- ### Python comparison and numeric coercion -/

/-- The numeric value of a Python operand (`bool` is an `int` subclass). -/
def numVal : PyVal → Option Rat
  | .int n => some (mkRat n 1)
  | .float q => some q
  | .bool b => some (mkRat (if b then 1 else 0) 1)
  | _ => Option.none

/-- Python `a > b`: numeric pairs compare numerically, strings compare
lexicographically, any other pairing raises `TypeError`. -/
def pyGt (a b : PyVal) : Except String Bool :=
  match numVal a, numVal b with
  | some x, some y => .ok (decide (y < x))
  | _, _ =>
    match a, b with
    | .str x, .str y => .ok (decide (y < x))
    | _, _ => .error "TypeError: '>' not supported between the operand types"

/-- Python `a < b` with the same domain as `pyGt`. -/
def pyLt (a b : PyVal) : Except String Bool :=
  match numVal a, numVal b with
  | some x, some y => .ok (decide (x < y))
  | _, _ =>
    match a, b with
    | .str x, .str y => .ok (decide (x < y))
    | _, _ => .error "TypeError: '<' not supported between the operand types"

/- ### Episode functions (`swapi.py` lines 437-763) -/

/-- Embeds `has_viewer_data` (lines 751-763): true iff
`convert_to_float(episode['episode_us_viewers_mm'])` is a float. -/
def has_viewer_data (episode : Dict) : Except String Bool := do
  let v ← dictGet episode "episode_us_viewers_mm"
  return (match convert_to_float v with | .float _ => true | _ => false)

/-- The per-entry body of the loops in `convert_episode_values` (lines 455-466):
`convert_to_none`, the (dead, since `convert_to_none` already maps `''` to
`None`) local `== ''` check, then the key-directed conversions. -/
def convertEpisodeEntry (k : String) (v : PyVal) : PyVal :=
  let v1 := convert_to_none v
  if v1 = .str "" then PyVal.none
  else
    let v2 :=
      if k = "series_season_num" ∨ k = "series_episode_num" ∨ k = "season_episode_num" then
        convert_to_int v1
      else v1
    let v3 :=
      if k = "episode_prod_code" ∨ k = "episode_us_viewers_mm" then convert_to_float v2 else v2
    if k = "episode_writers" then convert_to_list v3 ", " else v3

/-- Embeds `convert_episode_values` (lines 437-467).  The source mutates each
dictionary value in place while iterating the dict's own keys and returns the
argument itself; in this state-passing embedding the returned list is the final
state of the argument. -/
def convert_episode_values (episodes : List Dict) : List Dict :=
  episodes.map (fun ep => ep.map (fun p => (p.1, convertEpisodeEntry p.1 p.2)))

/-- One step of `count_episodes_by_director`'s dict update (lines 492-495):
increment in place when the key exists, else append it with count 1. -/
def countAdd : List (PyVal × Nat) → PyVal → List (PyVal × Nat)
  | [], k => [(k, 1)]
  | (k2, n) :: rest, k =>
    if k2 = k then (k2, n + 1) :: rest else (k2, n) :: countAdd rest k

def countGo : List Dict → List (PyVal × Nat) → Except String (List (PyVal × Nat))
  | [], r => .ok r
  | ep :: rest, r => do
    let d ← dictGet ep "episode_director"
    countGo rest (countAdd r d)

/-- Embeds `count_episodes_by_director` (lines 470-496): a dict from each
`'episode_director'` value to the number of episodes directed. -/
def count_episodes_by_director (episodes : List Dict) : Except String (List (PyVal × Nat)) :=
  countGo episodes []

/-- One step of `group_episodes_by_writer`'s dict update (lines 743-746):
append the episode to an existing writer's list, else add a singleton list. -/
def groupAdd : List (String × List Dict) → String → Dict → List (String × List Dict)
  | [], w, e => [(w, [e])]
  | (w2, l) :: rest, w, e =>
    if w2 = w then (w2, l ++ [e]) :: rest else (w2, l) :: groupAdd rest w e

/-- Python iteration over an `'episode_writers'` value: a list yields its
elements, a string yields its characters, anything else raises `TypeError`. -/
def writerIter : PyVal → Except String (List String)
  | .list ws => .ok ws
  | .str s => .ok (s.data.map (fun c => String.mk [c]))
  | _ => .error "TypeError: object is not iterable"

def groupGo : List Dict → List (String × List Dict) → Except String (List (String × List Dict))
  | [], r => .ok r
  | ep :: rest, r => do
    let wv ← dictGet ep "episode_writers"
    let ws ← writerIter wv
    groupGo rest (ws.foldl (fun r2 w => groupAdd r2 w ep) r)

/-- Embeds `group_episodes_by_writer` (lines 721-748); the `print` call is an
unmodelled side effect. -/
def group_episodes_by_writer (episodes : List Dict) : Except String (List (String × List Dict)) :=
  groupGo episodes []

/-- The shared scan of `get_most_viewed_episode` / `get_least_viewed_episode`
(lines 692-696 and 713-717): `n` is the current loop index, `maxi` the raw
stored value, `index` the best index so far.  On an update the RAW value
`episodes[ep]['episode_us_viewers_mm']` is stored, while the comparison uses
`convert_to_float` of it, exactly as in the source. -/
def viewedGo (cmp : PyVal → PyVal → Except String Bool) :
    List Dict → Nat → PyVal → Nat → Except String (PyVal × Nat)
  | [], _, maxi, index => .ok (maxi, index)
  | ep :: rest, n, maxi, index => do
    let hv ← has_viewer_data ep
    if hv then do
      let v ← dictGet ep "episode_us_viewers_mm"
      let b ← cmp (convert_to_float v) maxi
      if b then viewedGo cmp rest (n + 1) v n
      else viewedGo cmp rest (n + 1) maxi index
    else viewedGo cmp rest (n + 1) maxi index

/-- Embeds `get_most_viewed_episode` (lines 700-718): `maxi` starts as the raw
`episodes[0]['episode_us_viewers_mm']` value and `index` as 0. -/
def get_most_viewed_episode (episodes : List Dict) : Except String Dict := do
  let ep0 ← listGet episodes 0
  let maxi ← dictGet ep0 "episode_us_viewers_mm"
  let r ← viewedGo pyGt episodes 0 maxi 0
  listGet episodes r.2

/-- Embeds `get_least_viewed_episode` (lines 679-697), identical to
`get_most_viewed_episode` but with `<`. -/
def get_least_viewed_episode (episodes : List Dict) : Except String Dict := do
  let ep0 ← listGet episodes 0
  let maxi ← dictGet ep0 "episode_us_viewers_mm"
  let r ← viewedGo pyLt episodes 0 maxi 0
  listGet episodes r.2

/- ### Record factories (`swapi.py` lines 499-676) and `jsonable` -/

/-- Attribute read on an object modelled as an attribute dict (`getattr` with
no default, lines 127-132, 256-261, 321-327, 427-434). -/
def attrGet : Dict → String → Except String PyVal
  | [], a => .error ("AttributeError: " ++ a)
  | (a2, v) :: rest, a => if a2 = a then .ok v else attrGet rest a

/-- The `jsonable` loop shared by `Droid`, `Planet` and `Starship`: reads the
fixed key list with `getattr` and accumulates a result dict in key order. -/
def jsonableGo (o : Dict) : List String → Dict → Except String Dict
  | [], acc => .ok acc
  | k :: ks, acc => do
    let v ← attrGet o k
    jsonableGo o ks (dictSet acc k v)

/-- The key list of `Droid.jsonable` (line 128). -/
def droid_jsonable_keys : List String :=
  ["url", "name", "model", "manufacturer", "create_year", "height_m", "mass_kg", "equipment"]

/-- `Droid.__init__` (lines 94-98): only `url`, `name` and `model` are set. -/
def Droid_init (url name model : PyVal) : Dict :=
  [("url", url), ("name", name), ("model", model)]

/-- `Droid.jsonable` (lines 105-132). -/
def Droid_jsonable (o : Dict) : Except String Dict :=
  jsonableGo o droid_jsonable_keys []

/-- The key list of `Person.jsonable` (line 257). -/
def person_jsonable_keys : List String :=
  ["url", "name", "birth_year", "height_m", "mass_kg", "homeworld", "force_sensitive"]

/-- `Person.__init__` (lines 223-228). -/
def Person_init (url name birth_year force_sensitive : PyVal) : Obj :=
  [("url", .v url), ("name", .v name), ("birth_year", .v birth_year),
   ("force_sensitive", .v force_sensitive)]

def personJsonableGo (o : Obj) : List String → Obj → Except String Obj
  | [], acc => .ok acc
  | k :: ks, acc => do
    let v ← objGet o k
    personJsonableGo o ks (objSet acc k v)

/-- `Person.jsonable` (lines 235-261). -/
def Person_jsonable (o : Obj) : Except String Obj :=
  personJsonableGo o person_jsonable_keys []

/-- The `for key in keys:` conversion loop shared by the factory functions:
`data[key] = utl.convert_to_none(data[key])` followed by the per-key
conversions `f`, writing the result back into the dict. -/
def convertLoop (f : String → PyVal → Except String PyVal) :
    List String → Dict → Except String Dict
  | [], d => .ok d
  | k :: ks, d => do
    let v ← dictGet d k
    let w ← f k v
    convertLoop f ks (dictSet d k w)

/-- The key list of `create_planet` (lines 602-603); note `'orbital_period'`. -/
def planet_keys : List String :=
  ["url", "name", "region", "sector", "suns", "moons", "orbital_period", "diameter",
   "gravity", "climate", "terrain", "population"]

/-- The key list of `Planet.jsonable` (lines 322-323). -/
def planet_jsonable_keys : List String :=
  ["url", "name", "region", "sector", "suns", "moons", "orbital_period_days", "diameter_km",
   "gravity_std", "climate", "terrain", "population"]

/-- The per-key body of `create_planet`'s conversion loop (lines 604-614).  The
`key == 'orbital_period_days'` branch is dead in the source because the key
list holds `'orbital_period'`; it is kept as written. -/
def planetConvertField (k : String) (v : PyVal) : PyVal :=
  match convert_to_none v with
  | .none => .none
  | v1 =>
    let v2 :=
      if k = "suns" ∨ k = "moons" ∨ k = "diameter" ∨ k = "population" then convert_to_int v1
      else v1
    let v3 := if k = "climate" ∨ k = "terrain" then convert_to_list v2 ", " else v2
    let v4 := if k = "orbital_period_days" then convert_to_float v3 else v3
    if k = "gravity" then convert_gravity_value v4 else v4

/-- `Planet.__init__` (lines 286-288). -/
def Planet_init (url name : PyVal) : Dict :=
  [("url", url), ("name", name)]

/-- The `setattr` loop of `create_planet` (lines 616-624). -/
def planetSetattrGo : List String → Dict → Dict → Except String Dict
  | [], _, p => .ok p
  | k :: ks, data, p => do
    let v ← dictGet data k
    let p2 :=
      if k = "orbital_period" then dictSet p "orbital_period_days" (convert_to_float v)
      else if k = "diameter" then dictSet p "diameter_km" v
      else if k = "gravity" then dictSet p "gravity_std" v
      else dictSet p k v
    planetSetattrGo ks data p2

/-- Embeds `create_planet` (lines 582-625). -/
def create_planet (data : Dict) : Except String Dict := do
  let d ← convertLoop (fun k v => .ok (planetConvertField k v)) planet_keys data
  let url ← dictGet d "url"
  let name ← dictGet d "name"
  planetSetattrGo planet_keys d (Planet_init url name)

/-- `Planet.jsonable` (lines 295-327). -/
def Planet_jsonable (p : Dict) : Except String Dict :=
  jsonableGo p planet_jsonable_keys []

/-- The key list of `create_starship` (lines 647-649). -/
def starship_keys : List String :=
  ["url", "name", "model", "starship_class", "manufacturer", "length",
   "max_atmosphering_speed", "hyperdrive_rating", "MGLT", "armament", "crew", "passengers",
   "cargo_capacity", "consumables"]

/-- The per-key body of `create_starship`'s conversion loop (lines 650-658).
`'max_atmosphering_speed'` and `'cargo_capacity'` use the raw builtin
`int(...)`, which raises on failure; the condition
`key == 'length_m' or 'hyperdrive_rating'` of line 657 is always truthy, so
every non-`None` value then passes through `convert_to_float`. -/
def starshipConvertField (k : String) (v : PyVal) : Except String PyVal :=
  match convert_to_none v with
  | .none => .ok .none
  | v1 => do
    let v2 ←
      if k = "max_atmosphering_speed" ∨ k = "cargo_capacity" then
        (pyInt v1).map PyVal.int
      else pure v1
    let v3 := if k = "armament" then convert_to_list v2 "," else v2
    return convert_to_float v3

/-- `Starship.__init__` (lines 355-363). -/
def Starship_init (url name model starship_class : PyVal) : Dict :=
  [("url", url), ("name", name), ("model", model), ("starship_class", starship_class),
   ("MGLT", PyVal.none), ("crew_members", PyVal.none), ("passengers_on_board", PyVal.none)]

/-- The `setattr` loop of `create_starship` (lines 661-675): note the raw
`int(data[key])` on the `'cargo_capacity'` and `'max_atmosphering_speed'`
branches, which raises `TypeError` on `None`. -/
def starshipSetattrGo : List String → Dict → Dict → Except String Dict
  | [], _, s => .ok s
  | k :: ks, data, s => do
    let s2 ←
      if k = "length" then do
        let v ← dictGet data k
        pure (dictSet s "length_m" v)
      else if k = "MGLT" then pure (dictSet s "MGLT" PyVal.none)
      else if k = "crew" then pure (dictSet s "crew_members" PyVal.none)
      else if k = "passengers" then pure (dictSet s "passengers_on_board" PyVal.none)
      else if k = "cargo_capacity" then do
        let v ← dictGet data k
        let n ← pyInt v
        pure (dictSet s "cargo_capacity_kg" (.int n))
      else if k = "max_atmosphering_speed" then do
        let v ← dictGet data k
        let n ← pyInt v
        pure (dictSet s "max_atmosphering_speed" (.int n))
      else do
        let v ← dictGet data k
        pure (dictSet s k v)
    starshipSetattrGo ks data s2

/-- Embeds `create_starship` (lines 628-676). -/
def create_starship (data : Dict) : Except String Dict := do
  let d ← convertLoop starshipConvertField starship_keys data
  let url ← dictGet d "url"
  let name ← dictGet d "name"
  let model ← dictGet d "model"
  let sclass ← dictGet d "starship_class"
  starshipSetattrGo starship_keys d (Starship_init url name model sclass)

/-- The key list of `create_person` (line 556). -/
def person_keys : List String :=
  ["url", "name", "birth_year", "height", "mass", "homeworld", "force_sensitive"]

/-- The per-key body of `create_person`'s conversion loop (lines 558-562). -/
def personConvertField (k : String) (v : PyVal) : PyVal :=
  match convert_to_none v with
  | .none => .none
  | v1 => if k = "height" ∨ k = "mass" then convert_to_float v1 else v1

/-- `for key in planets[12]: tatooine_data[key] = planets[12][key]`
(lines 573-574). -/
def mergeDict (base extra : Dict) : Dict :=
  extra.foldl (fun d p => dictSet d p.1 p.2) base

/-- The `setattr` loop of `create_person` (lines 566-578).  `swapi` stands for
`utl.get_swapi_resource` (a remote lookup outside the source tree), passed as
an oracle; `planets` is the optional supplemental list whose Python default is
`None`, and the homeworld branch unconditionally subscripts `planets[12]`
(`None[12]` is a `TypeError`). -/
def personSetattrGo (swapi : PyVal → Except String Dict) (planets : Option (List Dict)) :
    List String → Dict → Obj → Except String Obj
  | [], _, p => .ok p
  | k :: ks, data, p => do
    let v ← dictGet data k
    if k = "height" then
      personSetattrGo swapi planets ks data (objSet p "height_m" (.v (convert_to_float v)))
    else if k = "mass" then
      personSetattrGo swapi planets ks data (objSet p "mass_kg" (.v (convert_to_float v)))
    else if k = "homeworld" then do
      let tatooine_data ← swapi v
      let w12 ←
        match planets with
        | Option.none => Except.error "TypeError: 'NoneType' object is not subscriptable"
        | Option.some ps => listGet ps 12
      let tat := mergeDict tatooine_data w12
      let planet ← create_planet tat
      let hw ← Planet_jsonable planet
      personSetattrGo swapi planets ks data (objSet p "homeworld" (.d hw))
    else
      personSetattrGo swapi planets ks data (objSet p k (.v v))

/-- Embeds `create_person` (lines 537-579); calling the Python function
without its optional second argument means `planets = Option.none` here. -/
def create_person (swapi : PyVal → Except String Dict) (data : Dict)
    (planets : Option (List Dict)) : Except String Obj := do
  let d ← convertLoop (fun k v => .ok (personConvertField k v)) person_keys data
  let url ← dictGet d "url"
  let name ← dictGet d "name"
  let birth_year ← dictGet d "birth_year"
  let force_sensitive ← dictGet d "force_sensitive"
  personSetattrGo swapi planets person_keys d (Person_init url name birth_year force_sensitive)

/- ### Generic lemmas about the embedding primitives -/

theorem exceptBind_ok {α β : Type} (a : α) (g : α → Except String β) :
    (Except.ok a >>= g) = g a := rfl

theorem exceptBind_error {α β : Type} (e : String) (g : α → Except String β) :
    ((Except.error e : Except String α) >>= g) = Except.error e := rfl

theorem bind_eq_ok_iff {α β : Type} {x : Except String α} {g : α → Except String β} {c : β} :
    x >>= g = .ok c ↔ ∃ b, x = .ok b ∧ g b = .ok c := by
  cases x <;> simp [exceptBind_ok, exceptBind_error]

theorem dictGet_dictSet_self (d : Dict) (k : String) (v : PyVal) :
    dictGet (dictSet d k v) k = .ok v := by
  induction d with
  | nil => simp [dictSet, dictGet]
  | cons p rest ih =>
    obtain ⟨k2, v2⟩ := p
    by_cases h : k2 = k <;> simp [dictSet, dictGet, h, ih]

theorem dictGet_dictSet_ne (d : Dict) (k k2 : String) (v : PyVal) (h : k2 ≠ k) :
    dictGet (dictSet d k v) k2 = dictGet d k2 := by
  have hne : ¬k = k2 := fun he => h he.symm
  induction d with
  | nil => simp [dictSet, dictGet, hne]
  | cons p rest ih =>
    obtain ⟨k3, v3⟩ := p
    by_cases h3 : k3 = k
    · subst h3
      simp [dictSet, dictGet, hne]
    · by_cases h4 : k3 = k2 <;> simp [dictSet, dictGet, h3, h4, ih, h]

theorem convertLoop_ok (f : String → PyVal → Except String PyVal) (ks : List String)
    (d : Dict) (hnd : ks.Nodup)
    (h : ∀ k ∈ ks, ∃ v w, dictGet d k = .ok v ∧ f k v = .ok w) :
    ∃ d2, convertLoop f ks d = .ok d2 := by
  induction ks generalizing d with
  | nil => exact ⟨d, rfl⟩
  | cons k ks ih =>
    obtain ⟨v, w, hv, hw⟩ := h k (List.mem_cons_self k ks)
    obtain ⟨hk, hnd2⟩ := List.nodup_cons.mp hnd
    obtain ⟨d2, hd2⟩ := ih hnd2 (d := dictSet d k w) (fun k2 hk2 => by
      obtain ⟨v2, w2, hv2, hw2⟩ := h k2 (List.mem_cons_of_mem k hk2)
      exact ⟨v2, w2, by
        rw [dictGet_dictSet_ne d k k2 w (fun he => hk (he ▸ hk2))]
        exact hv2, hw2⟩)
    exact ⟨d2, by simp [convertLoop, hv, exceptBind_ok, hw, hd2]⟩

theorem convertLoop_ok_not_mem (f : String → PyVal → Except String PyVal) (ks : List String)
    (d d2 : Dict) (h : convertLoop f ks d = .ok d2) (k : String) (hk : k ∉ ks) :
    dictGet d2 k = dictGet d k := by
  induction ks generalizing d with
  | nil =>
    simp only [convertLoop] at h
    cases h
    rfl
  | cons k2 ks ih =>
    simp only [convertLoop, bind_eq_ok_iff] at h
    obtain ⟨v, hv, w, hw, hrest⟩ := h
    have hne : k ≠ k2 := fun he => hk (he ▸ List.mem_cons_self k2 ks)
    rw [ih (dictSet d k2 w) hrest (fun hm => hk (List.mem_cons_of_mem k2 hm))]
    exact dictGet_dictSet_ne d k2 k w hne

theorem convertLoop_ok_get (f : String → PyVal → Except String PyVal) (ks : List String)
    (d d2 : Dict) (hnd : ks.Nodup) (h : convertLoop f ks d = .ok d2) :
    ∀ k ∈ ks, ∃ v w, dictGet d k = .ok v ∧ f k v = .ok w ∧ dictGet d2 k = .ok w := by
  induction ks generalizing d with
  | nil => intro k hk; cases hk
  | cons k2 ks ih =>
    simp only [convertLoop, bind_eq_ok_iff] at h
    obtain ⟨v, hv, w, hw, hrest⟩ := h
    obtain ⟨hk2, hnd2⟩ := List.nodup_cons.mp hnd
    intro k hk
    rcases List.mem_cons.mp hk with he | hm
    · subst he
      refine ⟨v, w, hv, hw, ?_⟩
      rw [convertLoop_ok_not_mem f ks (dictSet d k w) d2 hrest k hk2]
      exact dictGet_dictSet_self d k w
    · obtain ⟨v2, w2, hv2, hw2, hd2⟩ := ih (dictSet d k2 w) hnd2 hrest k hm
      have hne : k ≠ k2 := fun he => hk2 (he ▸ hm)
      rw [dictGet_dictSet_ne d k2 k w hne] at hv2
      exact ⟨v2, w2, hv2, hw2, hd2⟩

theorem pyInt_float (q : Rat) : pyInt (.float q) = .ok (ratTrunc q) := rfl

theorem convert_to_float_int (n : Int) : convert_to_float (.int n) = .float (mkRat n 1) := rfl

theorem convert_to_float_float (q : Rat) : convert_to_float (.float q) = .float q := rfl

/- ### Lemmas for `create_starship` (claim C3) -/

theorem starshipConvertField_total (k : String) (v : PyVal)
    (h1 : k ≠ "max_atmosphering_speed") (h2 : k ≠ "cargo_capacity") :
    ∃ w, starshipConvertField k v = .ok w := by
  cases hc : convert_to_none v <;>
    simp [starshipConvertField, hc, h1, h2, exceptBind_ok, pure, Except.pure]

theorem starshipConvertField_intKey (k : String) (v : PyVal) (n : Int)
    (hk : k = "max_atmosphering_speed" ∨ k = "cargo_capacity")
    (h1 : convert_to_none v ≠ .none) (h2 : pyInt (convert_to_none v) = .ok n) :
    starshipConvertField k v = .ok (.float (mkRat n 1)) := by
  have harm : k ≠ "armament" := by rcases hk with h | h <;> subst h <;> decide
  cases hc : convert_to_none v
  case none => exact absurd hc h1
  all_goals
    rw [hc] at h2
    simp [starshipConvertField, hc, hk, h2, exceptBind_ok, harm, Except.map, convert_to_float_int]

theorem attrGet_dictSet_self (d : Dict) (k : String) (v : PyVal) :
    attrGet (dictSet d k v) k = .ok v := by
  induction d with
  | nil => simp [dictSet, attrGet]
  | cons p rest ih =>
    obtain ⟨k2, v2⟩ := p
    by_cases h : k2 = k <;> simp [dictSet, attrGet, h, ih]

theorem attrGet_dictSet_ne (d : Dict) (k k2 : String) (v : PyVal) (h : k2 ≠ k) :
    attrGet (dictSet d k v) k2 = attrGet d k2 := by
  have hne : ¬k = k2 := fun he => h he.symm
  induction d with
  | nil => simp [dictSet, attrGet, hne]
  | cons p rest ih =>
    obtain ⟨k3, v3⟩ := p
    by_cases h3 : k3 = k
    · subst h3
      simp [dictSet, attrGet, hne]
    · by_cases h4 : k3 = k2 <;> simp [dictSet, attrGet, h3, h4, ih, h]

theorem starshipStep (k : String) (ks : List String) (data s : Dict) (v : PyVal)
    (hv : dictGet data k = .ok v)
    (hflt : (k = "cargo_capacity" ∨ k = "max_atmosphering_speed") → ∃ q, v = .float q) :
    ∃ a val, starshipSetattrGo (k :: ks) data s = starshipSetattrGo ks data (dictSet s a val) ∧
      (k = "consumables" → a = "consumables" ∧ val = v) ∧
      (k ≠ "consumables" → a ≠ "consumables") := by
  by_cases h1 : k = "length"
  · subst h1
    exact ⟨"length_m", v, by simp [starshipSetattrGo, hv, exceptBind_ok], by simp, by simp⟩
  · by_cases h2 : k = "MGLT"
    · subst h2
      exact ⟨"MGLT", PyVal.none, by simp [starshipSetattrGo, exceptBind_ok], by simp, by simp⟩
    · by_cases h3 : k = "crew"
      · subst h3
        exact ⟨"crew_members", PyVal.none, by simp [starshipSetattrGo, exceptBind_ok], by simp,
          by simp⟩
      · by_cases h4 : k = "passengers"
        · subst h4
          exact ⟨"passengers_on_board", PyVal.none,
            by simp [starshipSetattrGo, exceptBind_ok], by simp, by simp⟩
        · by_cases h5 : k = "cargo_capacity"
          · subst h5
            obtain ⟨q, rfl⟩ := hflt (Or.inl rfl)
            exact ⟨"cargo_capacity_kg", .int (ratTrunc q),
              by simp [starshipSetattrGo, hv, exceptBind_ok, pyInt_float], by simp, by simp⟩
          · by_cases h6 : k = "max_atmosphering_speed"
            · subst h6
              obtain ⟨q, rfl⟩ := hflt (Or.inr rfl)
              exact ⟨"max_atmosphering_speed", .int (ratTrunc q),
                by simp [starshipSetattrGo, hv, exceptBind_ok, pyInt_float], by simp, by simp⟩
            · refine ⟨k, v, ?_, fun hc => ⟨hc, rfl⟩, fun hc => hc⟩
              simp [starshipSetattrGo, h1, h2, h3, h4, h5, h6, hv, exceptBind_ok]

theorem starshipSetattrGo_ok (ks : List String) (data s : Dict)
    (h : ∀ k ∈ ks, ∃ v, dictGet data k = .ok v ∧
      ((k = "cargo_capacity" ∨ k = "max_atmosphering_speed") → ∃ q, v = .float q)) :
    ∃ s2, starshipSetattrGo ks data s = .ok s2 ∧
      ("consumables" ∉ ks → attrGet s2 "consumables" = attrGet s "consumables") ∧
      (∀ v, "consumables" ∈ ks → dictGet data "consumables" = .ok v →
        attrGet s2 "consumables" = .ok v) := by
  induction ks generalizing s with
  | nil =>
    exact ⟨s, rfl, fun _ => rfl, fun v hm => absurd hm (List.not_mem_nil _)⟩
  | cons k ks ih =>
    obtain ⟨v, hv, hflt⟩ := h k (List.mem_cons_self k ks)
    obtain ⟨a, val, hstep, hconsEq, hconsNe⟩ := starshipStep k ks data s v hv hflt
    obtain ⟨s2, hs2, hpres, hfin⟩ :=
      ih (fun k2 hk2 => h k2 (List.mem_cons_of_mem k hk2)) (s := dictSet s a val)
    refine ⟨s2, hstep.trans hs2, ?_, ?_⟩
    · intro hnm
      have hkne : k ≠ "consumables" := fun he => hnm (he ▸ List.mem_cons_self k ks)
      have hane : a ≠ "consumables" := hconsNe hkne
      rw [hpres (fun hm => hnm (List.mem_cons_of_mem k hm))]
      exact attrGet_dictSet_ne s a "consumables" val (fun he => hane he.symm)
    · intro v2 hm hv2
      by_cases hmem : "consumables" ∈ ks
      · exact hfin v2 hmem hv2
      · have hk : k = "consumables" := by
          rcases List.mem_cons.mp hm with he | hmm
          · exact he.symm
          · exact absurd hmm hmem
        obtain ⟨ha, hval⟩ := hconsEq hk
        have hv3 : dictGet data "consumables" = .ok v := hk ▸ hv
        have hv2v : v2 = v := Except.ok.inj (hv2.symm.trans hv3)
        rw [hpres hmem, ha, hval, hv2v]
        exact attrGet_dictSet_self s "consumables" v

/- ### Claim C3 -/

/-- A starship input dictionary containing every expected starship key, whose
`cargo_capacity` is the placeholder string `"unknown"` (as in the Wookieepedia
CSV data). -/
def c3ShipData : Dict :=
  [("url", .str "u1"), ("name", .str "Twilight"), ("model", .str "G9"),
   ("starship_class", .str "freighter"), ("manufacturer", .str "CEC"), ("length", .str "34.1"),
   ("max_atmosphering_speed", .str "1050"), ("hyperdrive_rating", .str "1.0"),
   ("MGLT", .str "unknown"), ("armament", .str "laser,missiles"), ("crew", .str "3"),
   ("passengers", .str "6"), ("cargo_capacity", .str "unknown"), ("consumables", .str "2 months")]

/-- `c3ShipData` with an `int()`-convertible `cargo_capacity`, for the witness
of the amended claim. -/
def c3ShipDataGood : Dict :=
  [("url", .str "u1"), ("name", .str "Twilight"), ("model", .str "G9"),
   ("starship_class", .str "freighter"), ("manufacturer", .str "CEC"), ("length", .str "34.1"),
   ("max_atmosphering_speed", .str "1050"), ("hyperdrive_rating", .str "1.0"),
   ("MGLT", .str "unknown"), ("armament", .str "laser,missiles"), ("crew", .str "3"),
   ("passengers", .str "6"), ("cargo_capacity", .str "110"), ("consumables", .str "2 months")]

/-- Claim C3, counterexample: on an input dictionary containing every expected
starship key whose `cargo_capacity` is `"unknown"`, `create_starship` raises
(`convert_to_none` maps the value to `None`, and the `setattr` phase then calls
the raw builtin `int(None)`), instead of returning normally with the failed
conversion carried over. -/
theorem C3_counterexample :
    create_starship c3ShipData = .error "TypeError: int() argument" := by decide

theorem c3_assemble (data d2 s2 : Dict) (w1 w2 w3 w4 : PyVal)
    (hd2 : convertLoop starshipConvertField starship_keys data = .ok d2)
    (hg1 : dictGet d2 "url" = .ok w1) (hg2 : dictGet d2 "name" = .ok w2)
    (hg3 : dictGet d2 "model" = .ok w3) (hg4 : dictGet d2 "starship_class" = .ok w4)
    (hs2 : starshipSetattrGo starship_keys d2 (Starship_init w1 w2 w3 w4) = .ok s2) :
    create_starship data = .ok s2 :=
  bind_eq_ok_iff.mpr ⟨d2, hd2, bind_eq_ok_iff.mpr ⟨w1, hg1, bind_eq_ok_iff.mpr ⟨w2, hg2,
    bind_eq_ok_iff.mpr ⟨w3, hg3, bind_eq_ok_iff.mpr ⟨w4, hg4, hs2⟩⟩⟩⟩⟩

/-- Claim C3 (amended): `create_starship` returns normally provided the
`'max_atmosphering_speed'` and `'cargo_capacity'` values survive
`convert_to_none` and are accepted by the builtin `int()`; every other field
may fail conversion freely, and such a field is carried over by the fallback
converters as the original value or `None` (shown here for `'consumables'`,
whose processed value `starshipConvertField` is stored unchanged on the
resulting starship). -/
theorem starship_setattr_hyp_of_facts (data d2 : Dict)
    (hfacts : ∀ k ∈ starship_keys, ∃ v w, dictGet data k = .ok v ∧
      starshipConvertField k v = .ok w ∧ dictGet d2 k = .ok w)
    (hmas : ∀ v, dictGet data "max_atmosphering_speed" = .ok v →
      convert_to_none v ≠ .none ∧ ∃ n, pyInt (convert_to_none v) = .ok n)
    (hcargo : ∀ v, dictGet data "cargo_capacity" = .ok v →
      convert_to_none v ≠ .none ∧ ∃ n, pyInt (convert_to_none v) = .ok n) :
    ∀ k ∈ starship_keys, ∃ v, dictGet d2 k = .ok v ∧
      ((k = "cargo_capacity" ∨ k = "max_atmosphering_speed") → ∃ q, v = .float q) := by
  intro k hk
  obtain ⟨v, w, hv, hf, hg⟩ := hfacts k hk
  refine ⟨w, hg, ?_⟩
  intro hcon
  rcases hcon with hkc | hkc
  · subst hkc
    obtain ⟨hnn, n, hn⟩ := hcargo v hv
    have hx := starshipConvertField_intKey _ v n (Or.inr rfl) hnn hn
    rw [hf] at hx
    exact ⟨mkRat n 1, Except.ok.inj hx⟩
  · subst hkc
    obtain ⟨hnn, n, hn⟩ := hmas v hv
    have hx := starshipConvertField_intKey _ v n (Or.inl rfl) hnn hn
    rw [hf] at hx
    exact ⟨mkRat n 1, Except.ok.inj hx⟩

/-- Claim C3 (amended): `create_starship` returns normally provided the
`'max_atmosphering_speed'` and `'cargo_capacity'` values survive
`convert_to_none` and are accepted by the builtin `int()`; every other field
may fail conversion freely, and such a field is carried over by the fallback
converters as the original value or `None` (shown here for `'consumables'`,
whose processed value `starshipConvertField` is stored unchanged on the
resulting starship). -/
theorem C3_amended (data : Dict)
    (hkeys : ∀ k ∈ starship_keys, ∃ v, dictGet data k = .ok v)
    (hmas : ∀ v, dictGet data "max_atmosphering_speed" = .ok v →
      convert_to_none v ≠ .none ∧ ∃ n, pyInt (convert_to_none v) = .ok n)
    (hcargo : ∀ v, dictGet data "cargo_capacity" = .ok v →
      convert_to_none v ≠ .none ∧ ∃ n, pyInt (convert_to_none v) = .ok n) :
    ∃ s, create_starship data = .ok s ∧
      ∀ vc w, dictGet data "consumables" = .ok vc →
        starshipConvertField "consumables" vc = .ok w →
        attrGet s "consumables" = .ok w := by
  have hnd : starship_keys.Nodup := by decide
  have hstep : ∀ k ∈ starship_keys,
      ∃ v w, dictGet data k = .ok v ∧ starshipConvertField k v = .ok w := by
    intro k hk
    obtain ⟨v, hv⟩ := hkeys k hk
    by_cases h1 : k = "max_atmosphering_speed"
    · subst h1
      obtain ⟨hnn, n, hn⟩ := hmas v hv
      exact ⟨v, _, hv, starshipConvertField_intKey _ v n (Or.inl rfl) hnn hn⟩
    · by_cases h2 : k = "cargo_capacity"
      · subst h2
        obtain ⟨hnn, n, hn⟩ := hcargo v hv
        exact ⟨v, _, hv, starshipConvertField_intKey _ v n (Or.inr rfl) hnn hn⟩
      · obtain ⟨w, hw⟩ := starshipConvertField_total k v h1 h2
        exact ⟨v, w, hv, hw⟩
  obtain ⟨d2, hd2⟩ := convertLoop_ok _ _ data hnd hstep
  have hfacts := convertLoop_ok_get _ _ data d2 hnd hd2
  obtain ⟨v1, w1, hv1, hf1, hg1⟩ := hfacts "url" (by decide)
  obtain ⟨v2, w2, hv2, hf2, hg2⟩ := hfacts "name" (by decide)
  obtain ⟨v3, w3, hv3, hf3, hg3⟩ := hfacts "model" (by decide)
  obtain ⟨v4, w4, hv4, hf4, hg4⟩ := hfacts "starship_class" (by decide)
  obtain ⟨v14, w14, hv14, hf14, hg14⟩ := hfacts "consumables" (by decide)
  obtain ⟨s2, hs2, _, hfin2⟩ := starshipSetattrGo_ok starship_keys d2 (Starship_init w1 w2 w3 w4)
    (starship_setattr_hyp_of_facts data d2 hfacts hmas hcargo)
  refine ⟨s2, c3_assemble data d2 s2 w1 w2 w3 w4 hd2 hg1 hg2 hg3 hg4 hs2, ?_⟩
  intro vc w hvc hw
  have hveq : vc = v14 := Except.ok.inj (hvc.symm.trans hv14)
  subst hveq
  have hweq : w = w14 := Except.ok.inj (hw.symm.trans hf14)
  subst hweq
  exact hfin2 _ (by decide) hg14

/-- Witness for `C3_amended` at a fully concrete starship dictionary. -/
theorem C3_amended_witness :
    ∃ s, create_starship c3ShipDataGood = .ok s ∧
      ∀ vc w, dictGet c3ShipDataGood "consumables" = .ok vc →
        starshipConvertField "consumables" vc = .ok w →
        attrGet s "consumables" = .ok w := by
  apply C3_amended
  · intro k hk
    fin_cases hk <;> exact ⟨_, rfl⟩
  · intro v hv
    have hveq : v = .str "1050" := Except.ok.inj (hv.symm.trans (rfl :
      dictGet c3ShipDataGood "max_atmosphering_speed" = .ok (.str "1050")))
    subst hveq
    exact ⟨by decide, 1050, by decide⟩
  · intro v hv
    have hveq : v = .str "110" := Except.ok.inj (hv.symm.trans (rfl :
      dictGet c3ShipDataGood "cargo_capacity" = .ok (.str "110")))
    subst hveq
    exact ⟨by decide, 110, by decide⟩

/- ### Claim C10 -/

/-- Claim C10: on a `Droid` constructed directly via `Droid(url, name, model)`
(and likewise a `Person` constructed via
`Person(url, name, birth_year, force_sensitive)`) whose optional attributes
were never set, `jsonable` raises an `AttributeError`, because it reads its
fixed key list with `getattr` and no default: the first key the constructor
did not set (`manufacturer` for droids, `height_m` for persons) fails. -/
theorem C10_direct_jsonable_raises (u n2 m2 b2 f2 : PyVal) :
    Droid_jsonable (Droid_init u n2 m2) = .error "AttributeError: manufacturer" ∧
    Person_jsonable (Person_init u n2 b2 f2) = .error "AttributeError: height_m" :=
  ⟨rfl, rfl⟩

/- ### Claims C4 and C9 -/

theorem convert_to_none_ne_empty (v : PyVal) : convert_to_none v ≠ .str "" := by
  cases v
  case str s =>
    show (if strLower (strTrim s) ∈ ["", "n/a", "none", "unknown"] then PyVal.none
      else PyVal.str s) ≠ .str ""
    by_cases hm : strLower (strTrim s) ∈ ["", "n/a", "none", "unknown"]
    · rw [if_pos hm]
      exact fun he => PyVal.noConfusion he
    · rw [if_neg hm]
      intro he
      rw [PyVal.str.injEq] at he
      subst he
      exact hm (by decide)
  all_goals exact fun he => PyVal.noConfusion he

theorem convert_to_none_cases (v : PyVal) :
    convert_to_none v = v ∨
    (∃ s, v = .str s ∧ strLower (strTrim s) ∈ ["", "n/a", "none", "unknown"] ∧
      convert_to_none v = PyVal.none) := by
  cases v
  case str s =>
    by_cases hm : strLower (strTrim s) ∈ ["", "n/a", "none", "unknown"]
    · exact Or.inr ⟨s, rfl, hm, by simp [convert_to_none, hm]⟩
    · exact Or.inl (by simp [convert_to_none, hm])
  all_goals exact Or.inl rfl

theorem convertEpisodeEntry_none (k : String) (v : PyVal) (h : convert_to_none v = .none) :
    convertEpisodeEntry k v = .none := by
  unfold convertEpisodeEntry
  rw [h]
  split_ifs <;> rfl

theorem convertEpisodeEntry_other (k : String) (v : PyVal)
    (h1 : k ≠ "series_season_num") (h2 : k ≠ "series_episode_num")
    (h3 : k ≠ "season_episode_num") (h4 : k ≠ "episode_prod_code")
    (h5 : k ≠ "episode_us_viewers_mm") (h6 : k ≠ "episode_writers") :
    convertEpisodeEntry k v = convert_to_none v := by
  unfold convertEpisodeEntry
  rw [if_neg (convert_to_none_ne_empty v)]
  simp [h1, h2, h3, h4, h5, h6]

theorem convertEpisodeEntry_int (k : String) (s : String) (n : Int)
    (hk : k = "series_season_num" ∨ k = "series_episode_num" ∨ k = "season_episode_num")
    (h1 : convert_to_none (.str s) = .str s) (h2 : pyInt (.str s) = .ok n) :
    convertEpisodeEntry k (.str s) = .int n := by
  have hne : k ≠ "episode_prod_code" ∧ k ≠ "episode_us_viewers_mm" ∧ k ≠ "episode_writers" := by
    rcases hk with rfl | rfl | rfl <;> exact ⟨by decide, by decide, by decide⟩
  unfold convertEpisodeEntry
  rw [h1, if_neg (h1 ▸ convert_to_none_ne_empty (.str s))]
  simp [hk, hne.1, hne.2.1, hne.2.2, convert_to_int, h2]

theorem convertEpisodeEntry_float (k : String) (s : String) (q : Rat)
    (hk : k = "episode_prod_code" ∨ k = "episode_us_viewers_mm")
    (h1 : convert_to_none (.str s) = .str s) (h2 : pyFloat (.str s) = .ok q) :
    convertEpisodeEntry k (.str s) = .float q := by
  have hne : k ≠ "series_season_num" ∧ k ≠ "series_episode_num" ∧ k ≠ "season_episode_num" ∧
      k ≠ "episode_writers" := by
    rcases hk with rfl | rfl <;> exact ⟨by decide, by decide, by decide, by decide⟩
  unfold convertEpisodeEntry
  rw [h1, if_neg (h1 ▸ convert_to_none_ne_empty (.str s))]
  simp [hk, hne.1, hne.2.1, hne.2.2.1, hne.2.2.2, convert_to_float, h2]

theorem convertEpisodeEntry_writers (s : String)
    (h1 : convert_to_none (.str s) = .str s) :
    convertEpisodeEntry "episode_writers" (.str s) = .list (strSplitOn s ", ") := by
  unfold convertEpisodeEntry
  rw [h1, if_neg (h1 ▸ convert_to_none_ne_empty (.str s))]
  simp [convert_to_list]

theorem forall2_map_self {α β : Type} (f : α → β) (R : α → β → Prop) (l : List α)
    (h : ∀ a ∈ l, R a (f a)) : List.Forall₂ R l (l.map f) := by
  induction l with
  | nil => exact List.Forall₂.nil
  | cons x xs ih =>
    exact List.Forall₂.cons (h x (List.mem_cons_self x xs))
      (ih (fun a ha => h a (List.mem_cons_of_mem x ha)))

def episodeIntKeys : List String := ["series_season_num", "series_episode_num", "season_episode_num"]

def episodeFloatKeys : List String := ["episode_prod_code", "episode_us_viewers_mm"]

def episodeSpecialKeys : List String := episodeIntKeys ++ episodeFloatKeys ++ ["episode_writers"]

def isIntVal : PyVal → Bool
  | .int _ => true
  | _ => false

def c4EntryRel (p q : String × PyVal) : Prop :=
  q.1 = p.1 ∧
  (∀ s, p.2 = .str s → strTrim s = "" → q.2 = PyVal.none) ∧
  (∀ s n, p.2 = .str s → convert_to_none (.str s) = .str s → p.1 ∈ episodeIntKeys →
    pyInt (.str s) = .ok n → q.2 = .int n) ∧
  (∀ s qf, p.2 = .str s → convert_to_none (.str s) = .str s → p.1 ∈ episodeFloatKeys →
    pyFloat (.str s) = .ok qf → q.2 = .float qf) ∧
  (∀ s, p.2 = .str s → convert_to_none (.str s) = .str s → p.1 = "episode_writers" →
    q.2 = .list (strSplitOn s ", "))

/-- Claim C4 (amended): in every episode of `convert_episode_values`' result,
position by position (`c4EntryRel`): keys are unchanged; every blank or empty
string value is replaced by `None`; a `'series_season_num'`,
`'series_episode_num'` or `'season_episode_num'` value that is an integer
literal is converted to int; an `'episode_prod_code'` or
`'episode_us_viewers_mm'` value that is a decimal literal is converted to
float; an `'episode_writers'` string value is split on `", "` into a list.
Values the converters reject are carried over unchanged (see
`C4_counterexample`). -/
theorem C4_amended (episodes : List Dict) :
    List.Forall₂ (fun ein eout => List.Forall₂ c4EntryRel ein eout)
      episodes (convert_episode_values episodes) := by
  apply forall2_map_self
  intro ep _
  apply forall2_map_self
  intro p _
  refine ⟨rfl, ?_, ?_, ?_, ?_⟩
  · intro s hps htrim
    have hnone : convert_to_none p.2 = PyVal.none := by
      rw [hps]
      show (if strLower (strTrim s) ∈ ["", "n/a", "none", "unknown"] then PyVal.none
        else PyVal.str s) = PyVal.none
      rw [htrim, if_pos (by decide)]
    exact convertEpisodeEntry_none p.1 p.2 hnone
  · intro s n hps hst hkmem h2
    have hk2 : p.1 = "series_season_num" ∨ p.1 = "series_episode_num" ∨
        p.1 = "season_episode_num" := by
      simpa [episodeIntKeys] using hkmem
    show convertEpisodeEntry p.1 p.2 = .int n
    rw [hps]
    exact convertEpisodeEntry_int p.1 s n hk2 hst h2
  · intro s qf hps hst hkmem h2
    have hk2 : p.1 = "episode_prod_code" ∨ p.1 = "episode_us_viewers_mm" := by
      simpa [episodeFloatKeys] using hkmem
    show convertEpisodeEntry p.1 p.2 = .float qf
    rw [hps]
    exact convertEpisodeEntry_float p.1 s qf hk2 hst h2
  · intro s hps hst hkw
    show convertEpisodeEntry p.1 p.2 = .list (strSplitOn s ", ")
    rw [hps, hkw]
    exact convertEpisodeEntry_writers s hst

def c4Episode : Dict :=
  [("series_season_num", .str "4a"), ("episode_writers", .str "A Dude, B Guy"),
   ("episode_us_viewers_mm", .str "2.5"), ("episode_director", .str " unknown ")]

/-- Claim C4, counterexample: a `'series_season_num'` value that is not an
integer literal is NOT converted from string to int; `convert_episode_values`
returns it unchanged as a string. -/
theorem C4_counterexample :
    convert_episode_values [[("series_season_num", PyVal.str "4a")]] =
      [[("series_season_num", PyVal.str "4a")]] ∧
    isIntVal (PyVal.str "4a") = false := by
  exact ⟨by decide, rfl⟩

/-- Witness for `C4_amended` at a concrete episode list. -/
theorem C4_amended_witness :
    List.Forall₂ (fun ein eout => List.Forall₂ c4EntryRel ein eout)
      [c4Episode] (convert_episode_values [c4Episode]) :=
  C4_amended [c4Episode]

def c9EntryRel (p q : String × PyVal) : Prop :=
  q.1 = p.1 ∧
  (p.1 ∉ episodeSpecialKeys →
    (q.2 = p.2 ∧ convert_to_none p.2 = p.2) ∨
    (∃ s, p.2 = .str s ∧ strLower (strTrim s) ∈ ["", "n/a", "none", "unknown"] ∧
      q.2 = PyVal.none))

/-- Claim C9: `convert_episode_values` is an in-place update of its argument
(the embedding returns the final state of the argument list: same list length,
and every episode dict keeps exactly its own keys in order), and for keys other
than the six converted ones each value keeps its original value, except that a
blank/empty or placeholder string (`''`, `'n/a'`, `'none'`, `'unknown'`, up to
case and surrounding whitespace) is replaced by `None`. -/
theorem C9_frame (episodes : List Dict) :
    (convert_episode_values episodes).length = episodes.length ∧
    List.Forall₂ (fun ein eout => eout.map Prod.fst = ein.map Prod.fst ∧
      List.Forall₂ c9EntryRel ein eout) episodes (convert_episode_values episodes) := by
  constructor
  · simp [convert_episode_values]
  · apply forall2_map_self
    intro ep _
    constructor
    · rw [List.map_map]
      rfl
    · apply forall2_map_self
      intro p _
      refine ⟨rfl, ?_⟩
      intro hns
      simp only [episodeSpecialKeys, episodeIntKeys, episodeFloatKeys, List.append_assoc,
        List.cons_append, List.nil_append, List.mem_cons, List.not_mem_nil, or_false,
        not_or] at hns
      obtain ⟨h1, h2, h3, h4, h5, h6⟩ := hns
      have he : convertEpisodeEntry p.1 p.2 = convert_to_none p.2 :=
        convertEpisodeEntry_other p.1 p.2 h1 h2 h3 h4 h5 h6
      rcases convert_to_none_cases p.2 with hcc | ⟨s, hps, hmem, hcn⟩
      · exact Or.inl ⟨he.trans hcc, hcc⟩
      · exact Or.inr ⟨s, hps, hmem, he.trans hcn⟩

/-- Witness for `C9_frame` at a concrete episode list. -/
theorem C9_frame_witness :
    (convert_episode_values [c4Episode]).length = [c4Episode].length ∧
    List.Forall₂ (fun ein eout => eout.map Prod.fst = ein.map Prod.fst ∧
      List.Forall₂ c9EntryRel ein eout) [c4Episode] (convert_episode_values [c4Episode]) :=
  C9_frame [c4Episode]

/- ### Claim C5 -/
/-- Association-list lookup into the director-count dict. -/
def clookup : List (PyVal × Nat) → PyVal → Option Nat
  | [], _ => Option.none
  | (k2, n) :: rest, k => if k2 = k then some n else clookup rest k

/-- The number of occurrences of a value in a list. -/
def countIn : List PyVal → PyVal → Nat
  | [], _ => 0
  | d :: ds, k => (if k = d then 1 else 0) + countIn ds k

theorem clookup_countAdd (r : List (PyVal × Nat)) (k k2 : PyVal) :
    clookup (countAdd r k) k2 =
      if k2 = k then some ((clookup r k).getD 0 + 1) else clookup r k2 := by
  induction r with
  | nil =>
    by_cases h : k2 = k
    · subst h
      simp [countAdd, clookup]
    · have h2 : ¬k = k2 := fun he => h he.symm
      simp [countAdd, clookup, h, h2]
  | cons p rest ih =>
    obtain ⟨a, n⟩ := p
    by_cases ha : a = k
    · subst ha
      by_cases hb : k2 = a
      · subst hb
        simp [countAdd, clookup]
      · have hab : ¬a = k2 := fun he => hb he.symm
        simp [countAdd, clookup, hb, hab]
    · by_cases hb : k2 = a
      · subst hb
        simp [countAdd, clookup, ha]
      · have hab : ¬a = k2 := fun he => hb he.symm
        simp [countAdd, clookup, ha, hab, ih]

theorem countAdd_keys_mem (r : List (PyVal × Nat)) (k k2 : PyVal) :
    k2 ∈ (countAdd r k).map Prod.fst ↔ (k2 ∈ r.map Prod.fst ∨ k2 = k) := by
  induction r with
  | nil => simp [countAdd]
  | cons p rest ih =>
    obtain ⟨a, n⟩ := p
    by_cases ha : a = k
    · subst ha
      by_cases hb : k2 = a <;> simp [countAdd, hb]
    · simp [countAdd, ha, ih]
      tauto

theorem countAdd_nodup (r : List (PyVal × Nat)) (k : PyVal)
    (h : (r.map Prod.fst).Nodup) : ((countAdd r k).map Prod.fst).Nodup := by
  induction r with
  | nil => simp [countAdd]
  | cons p rest ih =>
    obtain ⟨a, n⟩ := p
    simp only [List.map_cons, List.nodup_cons] at h
    by_cases ha : a = k
    · subst ha
      simp [countAdd, List.nodup_cons, h.1, h.2]
    · simp only [countAdd, ha, if_false, List.map_cons, List.nodup_cons]
      refine ⟨?_, ih h.2⟩
      rw [countAdd_keys_mem]
      rintro (hm | he)
      · exact h.1 hm
      · exact ha he

theorem clookup_of_mem (r : List (PyVal × Nat)) (hnd : (r.map Prod.fst).Nodup)
    (k : PyVal) (n : Nat) (h : (k, n) ∈ r) : clookup r k = some n := by
  induction r with
  | nil => cases h
  | cons p rest ih =>
    obtain ⟨a, m⟩ := p
    simp only [List.map_cons, List.nodup_cons] at hnd
    rcases List.mem_cons.mp h with he | hm
    · rw [Prod.mk.injEq] at he
      obtain ⟨he1, he2⟩ := he
      subst he1
      subst he2
      simp [clookup]
    · have hak : ¬a = k := by
        intro he
        subst he
        exact hnd.1 (by exact List.mem_map.mpr ⟨(a, n), hm, rfl⟩)
      simp [clookup, hak, ih hnd.2 hm]

theorem clookup_isSome (r : List (PyVal × Nat)) (k : PyVal) :
    (clookup r k).isSome = true ↔ k ∈ r.map Prod.fst := by
  induction r with
  | nil => simp [clookup]
  | cons p rest ih =>
    obtain ⟨a, m⟩ := p
    by_cases ha : a = k
    · subst ha
      simp [clookup]
    · have hak : ¬k = a := fun he => ha he.symm
      simp [clookup, ha, hak, ih]

theorem countGo_spec (episodes : List Dict) (ds : List PyVal)
    (h : List.Forall₂ (fun ep d => dictGet ep "episode_director" = .ok d) episodes ds) :
    ∀ r : List (PyVal × Nat), (r.map Prod.fst).Nodup →
    ∃ r2, countGo episodes r = .ok r2 ∧ (r2.map Prod.fst).Nodup ∧
      ∀ k, clookup r2 k =
        match clookup r k with
        | some n => some (n + countIn ds k)
        | Option.none => if k ∈ ds then some (countIn ds k) else Option.none := by
  induction h with
  | nil =>
    intro r hnd
    refine ⟨r, rfl, hnd, fun k => ?_⟩
    cases clookup r k <;> simp [countIn]
  | @cons ep d eps ds2 hpd hrest ih =>
    intro r hnd
    obtain ⟨r2, hr2, hnd2, hspec⟩ := ih (countAdd r d) (countAdd_nodup r d hnd)
    refine ⟨r2, bind_eq_ok_iff.mpr ⟨d, hpd, hr2⟩, hnd2, fun k => ?_⟩
    rw [hspec k, clookup_countAdd]
    by_cases hk : k = d
    · subst hk
      cases hck : clookup r k
      all_goals simp [hck, countIn, List.mem_cons]
      all_goals omega
    · have hdm : (k ∈ d :: ds2) ↔ k ∈ ds2 := by simp [List.mem_cons, hk]
      cases hck : clookup r k <;> simp [hck, hk, countIn, hdm]

/-- Claim C5: when every episode carries an `'episode_director'` value (the
list `ds`, via `Forall₂`), `count_episodes_by_director` returns a dictionary
whose keys are exactly the distinct director values occurring in the list (no
duplicate keys) and whose value for each director is the number of episodes
directed by them. -/
theorem C5_count_episodes_by_director (episodes : List Dict) (ds : List PyVal)
    (h : List.Forall₂ (fun ep d => dictGet ep "episode_director" = .ok d) episodes ds) :
    ∃ r, count_episodes_by_director episodes = .ok r ∧
      (r.map Prod.fst).Nodup ∧
      (∀ k, k ∈ r.map Prod.fst ↔ k ∈ ds) ∧
      (∀ k n, (k, n) ∈ r → n = countIn ds k) := by
  obtain ⟨r2, hr2, hnd2, hspec⟩ := countGo_spec episodes ds h [] (by simp)
  refine ⟨r2, hr2, hnd2, ?_, ?_⟩
  · intro k
    rw [← clookup_isSome, hspec k]
    by_cases hm : k ∈ ds <;> simp [clookup, hm]
  · intro k n hkn
    have hl : clookup r2 k = some n := clookup_of_mem r2 hnd2 k n hkn
    rw [hspec k] at hl
    by_cases hm : k ∈ ds
    · simp only [clookup, hm, if_true] at hl
      exact (Option.some.inj hl).symm
    · simp only [clookup, hm, if_false] at hl
      cases hl

def c5Episodes : List Dict :=
  [[("episode_director", .str "Ava")], [("episode_director", .str "Ben")],
   [("episode_director", .str "Ava")]]

/-- Witness for `C5_count_episodes_by_director` at a concrete episode list. -/
theorem C5_count_witness :
    ∃ r, count_episodes_by_director c5Episodes = .ok r ∧
      (r.map Prod.fst).Nodup ∧
      (∀ k, k ∈ r.map Prod.fst ↔ k ∈ [PyVal.str "Ava", .str "Ben", .str "Ava"]) ∧
      (∀ k n, (k, n) ∈ r → n = countIn [PyVal.str "Ava", .str "Ben", .str "Ava"] k) := by
  apply C5_count_episodes_by_director
  exact List.Forall₂.cons rfl (List.Forall₂.cons rfl (List.Forall₂.cons rfl List.Forall₂.nil))

/- ### Claim C6 -/

/-- Association-list lookup into the writer-group dict. -/
def glookup : List (String × List Dict) → String → Option (List Dict)
  | [], _ => Option.none
  | (w2, l) :: rest, w => if w2 = w then some l else glookup rest w

/-- The episodes, in order, whose associated writer list contains `w`. -/
def selectEpisodes : List (Dict × List String) → String → List Dict
  | [], _ => []
  | (e, ws) :: rest, w => (if w ∈ ws then [e] else []) ++ selectEpisodes rest w

theorem glookup_groupAdd (r : List (String × List Dict)) (w w2 : String) (e : Dict) :
    glookup (groupAdd r w e) w2 =
      if w2 = w then some ((glookup r w).getD [] ++ [e]) else glookup r w2 := by
  induction r with
  | nil =>
    by_cases h : w2 = w
    · subst h
      simp [groupAdd, glookup]
    · have h2 : ¬w = w2 := fun he => h he.symm
      simp [groupAdd, glookup, h, h2]
  | cons p rest ih =>
    obtain ⟨a, l⟩ := p
    by_cases ha : a = w
    · subst ha
      by_cases hb : w2 = a
      · subst hb
        simp [groupAdd, glookup]
      · have hab : ¬a = w2 := fun he => hb he.symm
        simp [groupAdd, glookup, hb, hab]
    · by_cases hb : w2 = a
      · subst hb
        simp [groupAdd, glookup, ha]
      · have hab : ¬a = w2 := fun he => hb he.symm
        simp [groupAdd, glookup, ha, hab, ih]

theorem groupAdd_keys_mem (r : List (String × List Dict)) (w w2 : String) (e : Dict) :
    w2 ∈ (groupAdd r w e).map Prod.fst ↔ (w2 ∈ r.map Prod.fst ∨ w2 = w) := by
  induction r with
  | nil => simp [groupAdd]
  | cons p rest ih =>
    obtain ⟨a, l⟩ := p
    by_cases ha : a = w
    · subst ha
      by_cases hb : w2 = a <;> simp [groupAdd, hb]
    · simp [groupAdd, ha, ih]
      tauto

theorem groupAdd_nodup (r : List (String × List Dict)) (w : String) (e : Dict)
    (h : (r.map Prod.fst).Nodup) : ((groupAdd r w e).map Prod.fst).Nodup := by
  induction r with
  | nil => simp [groupAdd]
  | cons p rest ih =>
    obtain ⟨a, l⟩ := p
    simp only [List.map_cons, List.nodup_cons] at h
    by_cases ha : a = w
    · subst ha
      simp [groupAdd, List.nodup_cons, h.1, h.2]
    · simp only [groupAdd, ha, if_false, List.map_cons, List.nodup_cons]
      refine ⟨?_, ih h.2⟩
      rw [groupAdd_keys_mem]
      rintro (hm | he)
      · exact h.1 hm
      · exact ha he

theorem glookup_isSome (r : List (String × List Dict)) (w : String) :
    (glookup r w).isSome = true ↔ w ∈ r.map Prod.fst := by
  induction r with
  | nil => simp [glookup]
  | cons p rest ih =>
    obtain ⟨a, l⟩ := p
    by_cases ha : a = w
    · subst ha
      simp [glookup]
    · have haw : ¬w = a := fun he => ha he.symm
      simp [glookup, ha, haw, ih]

theorem glookup_of_mem (r : List (String × List Dict)) (hnd : (r.map Prod.fst).Nodup)
    (w : String) (l : List Dict) (h : (w, l) ∈ r) : glookup r w = some l := by
  induction r with
  | nil => cases h
  | cons p rest ih =>
    obtain ⟨a, m⟩ := p
    simp only [List.map_cons, List.nodup_cons] at hnd
    rcases List.mem_cons.mp h with he | hm
    · rw [Prod.mk.injEq] at he
      obtain ⟨he1, he2⟩ := he
      subst he1
      subst he2
      simp [glookup]
    · have hak : ¬a = w := by
        intro he
        subst he
        exact hnd.1 (List.mem_map.mpr ⟨(a, l), hm, rfl⟩)
      simp [glookup, hak, ih hnd.2 hm]

theorem writersFold_glookup (ws : List String) (hnd : ws.Nodup) (e : Dict)
    (r : List (String × List Dict)) (w2 : String) :
    glookup (ws.foldl (fun r2 w => groupAdd r2 w e) r) w2 =
      if w2 ∈ ws then some ((glookup r w2).getD [] ++ [e]) else glookup r w2 := by
  induction ws generalizing r with
  | nil => simp
  | cons w ws2 ih =>
    obtain ⟨hw, hnd2⟩ := List.nodup_cons.mp hnd
    simp only [List.foldl_cons]
    rw [ih hnd2]
    by_cases hb : w2 = w
    · subst hb
      have hni : w2 ∉ ws2 := hw
      simp [hni, glookup_groupAdd, List.mem_cons]
    · by_cases hm : w2 ∈ ws2
      · simp [hm, List.mem_cons, hb, glookup_groupAdd]
      · simp [hm, List.mem_cons, hb, glookup_groupAdd]

theorem writersFold_nodup (ws : List String) (e : Dict)
    (r : List (String × List Dict)) (hnd : (r.map Prod.fst).Nodup) :
    (((ws.foldl (fun r2 w => groupAdd r2 w e) r)).map Prod.fst).Nodup := by
  induction ws generalizing r with
  | nil => exact hnd
  | cons w ws2 ih =>
    simp only [List.foldl_cons]
    exact ih (groupAdd r w e) (groupAdd_nodup r w e hnd)

theorem groupGo_spec (episodes : List Dict) (wss : List (List String))
    (h : List.Forall₂ (fun ep ws =>
      dictGet ep "episode_writers" = .ok (.list ws) ∧ ws.Nodup) episodes wss) :
    ∀ r : List (String × List Dict), (r.map Prod.fst).Nodup →
    ∃ r2, groupGo episodes r = .ok r2 ∧ (r2.map Prod.fst).Nodup ∧
      ∀ w, glookup r2 w =
        match glookup r w with
        | some l => some (l ++ selectEpisodes (episodes.zip wss) w)
        | Option.none =>
          if selectEpisodes (episodes.zip wss) w = [] then Option.none
          else some (selectEpisodes (episodes.zip wss) w) := by
  induction h with
  | nil =>
    intro r hnd
    refine ⟨r, rfl, hnd, fun w => ?_⟩
    cases glookup r w <;> simp [selectEpisodes]
  | @cons ep ws eps wss2 hpd hrest ih =>
    intro r hnd
    obtain ⟨r2, hr2, hnd2, hspec⟩ :=
      ih (ws.foldl (fun r2 w => groupAdd r2 w ep) r) (writersFold_nodup ws ep r hnd)
    refine ⟨r2, bind_eq_ok_iff.mpr ⟨.list ws, hpd.1, bind_eq_ok_iff.mpr ⟨ws, rfl, hr2⟩⟩,
      hnd2, fun w => ?_⟩
    rw [hspec w, writersFold_glookup ws hpd.2 ep r w]
    have hz : (ep :: eps).zip (ws :: wss2) = (ep, ws) :: eps.zip wss2 := rfl
    rw [hz]
    simp only [selectEpisodes]
    by_cases hm : w ∈ ws
    · cases hg : glookup r w <;> simp [hm, hg]
    · cases hg : glookup r w <;> simp [hm, hg]

theorem selectEpisodes_mem (episodes : List Dict) (wss : List (List String)) (w : String)
    (hlen : episodes.length = wss.length) :
    (¬selectEpisodes (episodes.zip wss) w = []) ↔ ∃ ws ∈ wss, w ∈ ws := by
  induction episodes generalizing wss with
  | nil =>
    cases wss with
    | nil => simp [selectEpisodes]
    | cons ws wss2 => cases hlen
  | cons ep eps ih =>
    cases wss with
    | nil => cases hlen
    | cons ws wss2 =>
      have hz : (ep :: eps).zip (ws :: wss2) = (ep, ws) :: eps.zip wss2 := rfl
      rw [hz]
      simp only [selectEpisodes, List.mem_cons]
      by_cases hm : w ∈ ws
      · simp [hm]
      · simp only [hm, if_false, List.nil_append]
        rw [ih wss2 (by simpa using hlen)]
        simp [hm]

/-- Claim C6 (amended): when every episode's `'episode_writers'` value is a
list of writer names with no duplicate names within one episode, the
dictionary built by `group_episodes_by_writer` has exactly the distinct writer
names occurring in any episode as its keys (no duplicate keys), and maps each
writer to the list, in original episode order, of exactly the episode
dictionaries whose writer list contains that writer. -/
theorem C6_amended (episodes : List Dict) (wss : List (List String))
    (h : List.Forall₂ (fun ep ws =>
      dictGet ep "episode_writers" = .ok (.list ws) ∧ ws.Nodup) episodes wss) :
    ∃ r, group_episodes_by_writer episodes = .ok r ∧
      (r.map Prod.fst).Nodup ∧
      (∀ w, w ∈ r.map Prod.fst ↔ ∃ ws ∈ wss, w ∈ ws) ∧
      (∀ w l, (w, l) ∈ r → l = selectEpisodes (episodes.zip wss) w) := by
  obtain ⟨r2, hr2, hnd2, hspec⟩ := groupGo_spec episodes wss h [] (by simp)
  refine ⟨r2, hr2, hnd2, ?_, ?_⟩
  · intro w
    rw [← glookup_isSome, hspec w, ← selectEpisodes_mem episodes wss w h.length_eq]
    by_cases hs : selectEpisodes (episodes.zip wss) w = [] <;> simp [glookup, hs]
  · intro w l hwl
    have hl : glookup r2 w = some l := glookup_of_mem r2 hnd2 w l hwl
    rw [hspec w] at hl
    by_cases hs : selectEpisodes (episodes.zip wss) w = []
    · simp only [glookup, hs, if_true] at hl
      cases hl
    · simp only [glookup, hs, if_false] at hl
      exact (Option.some.inj hl).symm

def c6DupEpisode : Dict := [("episode_writers", PyVal.list ["A Dude", "A Dude"])]

/-- Claim C6, counterexample: an episode listing the same writer twice is
appended twice to that writer's group, so the value is not the list of exactly
the episode dictionaries whose `'episode_writers'` contains the writer. -/
theorem C6_counterexample :
    group_episodes_by_writer [c6DupEpisode] =
      .ok [("A Dude", [c6DupEpisode, c6DupEpisode])] ∧
    [c6DupEpisode, c6DupEpisode] ≠ [c6DupEpisode] :=
  ⟨by decide, by decide⟩

def c6Episodes : List Dict :=
  [[("episode_writers", PyVal.list ["A Dude", "B Guy"])],
   [("episode_writers", PyVal.list ["B Guy"])]]

/-- Witness for `C6_amended` at a concrete episode list. -/
theorem C6_amended_witness :
    ∃ r, group_episodes_by_writer c6Episodes = .ok r ∧
      (r.map Prod.fst).Nodup ∧
      (∀ w, w ∈ r.map Prod.fst ↔ ∃ ws ∈ [["A Dude", "B Guy"], ["B Guy"]], w ∈ ws) ∧
      (∀ w l, (w, l) ∈ r →
        l = selectEpisodes (c6Episodes.zip [["A Dude", "B Guy"], ["B Guy"]]) w) := by
  apply C6_amended
  exact List.Forall₂.cons ⟨rfl, by decide⟩ (List.Forall₂.cons ⟨rfl, by decide⟩ List.Forall₂.nil)

/-- The attribute name written by the `setattr` loop of `create_planet` for a
given data key (lines 616-624). -/
def planetAttrName (k : String) : String :=
  if k = "orbital_period" then "orbital_period_days"
  else if k = "diameter" then "diameter_km"
  else if k = "gravity" then "gravity_std"
  else k

/-- The attribute value written by the `setattr` loop of `create_planet`. -/
def planetAttrVal (k : String) (v : PyVal) : PyVal :=
  if k = "orbital_period" then convert_to_float v else v

theorem planetSetattrGo_step (k : String) (ks : List String) (data p : Dict) (v : PyVal)
    (hv : dictGet data k = .ok v) :
    planetSetattrGo (k :: ks) data p =
      planetSetattrGo ks data (dictSet p (planetAttrName k) (planetAttrVal k v)) := by
  by_cases h1 : k = "orbital_period"
  · subst h1
    simp [planetSetattrGo, hv, exceptBind_ok, planetAttrName, planetAttrVal]
  · by_cases h2 : k = "diameter"
    · subst h2
      simp [planetSetattrGo, hv, exceptBind_ok, planetAttrName, planetAttrVal]
    · by_cases h3 : k = "gravity"
      · subst h3
        simp [planetSetattrGo, hv, exceptBind_ok, planetAttrName, planetAttrVal]
      · simp [planetSetattrGo, hv, exceptBind_ok, planetAttrName, planetAttrVal, h1, h2, h3]

theorem planetSetattrGo_track (ks : List String) (data p : Dict)
    (h : ∀ k ∈ ks, ∃ v, dictGet data k = .ok v) :
    ∃ p2, planetSetattrGo ks data p = .ok p2 ∧
      (∀ a, (∀ k ∈ ks, planetAttrName k ≠ a) → attrGet p2 a = attrGet p a) ∧
      (∀ a k v, k ∈ ks → (∀ k2 ∈ ks, planetAttrName k2 = a → k2 = k) →
        planetAttrName k = a → dictGet data k = .ok v →
        attrGet p2 a = .ok (planetAttrVal k v)) := by
  induction ks generalizing p with
  | nil =>
    exact ⟨p, rfl, fun a _ => rfl, fun a k v hk => absurd hk (List.not_mem_nil _)⟩
  | cons k0 ks ih =>
    obtain ⟨v0, hv0⟩ := h k0 (List.mem_cons_self k0 ks)
    obtain ⟨p2, hp2, hpres, htrack⟩ :=
      ih (fun k2 hk2 => h k2 (List.mem_cons_of_mem k0 hk2))
        (p := dictSet p (planetAttrName k0) (planetAttrVal k0 v0))
    refine ⟨p2, (planetSetattrGo_step k0 ks data p v0 hv0).trans hp2, ?_, ?_⟩
    · intro a ha
      rw [hpres a (fun k2 hk2 => ha k2 (List.mem_cons_of_mem k0 hk2))]
      exact attrGet_dictSet_ne p (planetAttrName k0) a (planetAttrVal k0 v0)
        (fun he => ha k0 (List.mem_cons_self k0 ks) he.symm)
    · intro a k v hk huniq hak hvk
      by_cases hmem : ∃ k2 ∈ ks, planetAttrName k2 = a
      · obtain ⟨k2, hk2m, hk2a⟩ := hmem
        have hk2k : k2 = k := huniq k2 (List.mem_cons_of_mem k0 hk2m) hk2a
        subst hk2k
        exact htrack a k2 v hk2m
          (fun k3 hk3 ha3 => huniq k3 (List.mem_cons_of_mem k0 hk3) ha3) hak hvk
      · have hka : k = k0 := by
          rcases List.mem_cons.mp hk with he | hm
          · exact he
          · exact absurd ⟨k, hm, hak⟩ hmem
        subst hka
        have hveq : v0 = v := Except.ok.inj (hv0.symm.trans hvk)
        subst hveq
        rw [hpres a (fun k2 hk2 ha2 => hmem ⟨k2, hk2, ha2⟩), ← hak]
        exact attrGet_dictSet_self p (planetAttrName k) (planetAttrVal k v0)

theorem convert_to_float_of_ok (v : PyVal) (q : Rat) (h : pyFloat v = .ok q) :
    convert_to_float v = .float q := by
  simp [convert_to_float, h]

theorem planetConvertField_int (k : String) (s : String) (n : Int)
    (hk : k = "suns" ∨ k = "moons" ∨ k = "diameter" ∨ k = "population")
    (h1 : convert_to_none (.str s) = .str s) (h2 : pyInt (.str s) = .ok n) :
    planetConvertField k (.str s) = .int n := by
  have hne : k ≠ "climate" ∧ k ≠ "terrain" ∧ k ≠ "orbital_period_days" ∧ k ≠ "gravity" := by
    rcases hk with rfl | rfl | rfl | rfl <;> exact ⟨by decide, by decide, by decide, by decide⟩
  simp [planetConvertField, h1, hk, hne.1, hne.2.1, hne.2.2.1, hne.2.2.2, convert_to_int, h2]

theorem planetConvertField_list (k : String) (s : String)
    (hk : k = "climate" ∨ k = "terrain")
    (h1 : convert_to_none (.str s) = .str s) :
    planetConvertField k (.str s) = .list (strSplitOn s ", ") := by
  have hne : k ≠ "suns" ∧ k ≠ "moons" ∧ k ≠ "diameter" ∧ k ≠ "population" ∧
      k ≠ "orbital_period_days" ∧ k ≠ "gravity" := by
    rcases hk with rfl | rfl <;>
      exact ⟨by decide, by decide, by decide, by decide, by decide, by decide⟩
  simp [planetConvertField, h1, hk, hne.1, hne.2.1, hne.2.2.1, hne.2.2.2.1, hne.2.2.2.2.1,
    hne.2.2.2.2.2, convert_to_list]

theorem planetConvertField_gravity (s : String) (h1 : convert_to_none (.str s) = .str s) :
    planetConvertField "gravity" (.str s) = convert_gravity_value (.str s) := by
  simp [planetConvertField, h1]

theorem planetConvertField_plain (k : String) (v : PyVal)
    (h1 : k ≠ "suns") (h2 : k ≠ "moons") (h3 : k ≠ "diameter") (h4 : k ≠ "population")
    (h5 : k ≠ "climate") (h6 : k ≠ "terrain") (h7 : k ≠ "orbital_period_days")
    (h8 : k ≠ "gravity") :
    planetConvertField k v = convert_to_none v := by
  cases hc : convert_to_none v <;>
    simp [planetConvertField, hc, h1, h2, h3, h4, h5, h6, h7, h8]

/-- Claim C7: for an input dictionary containing the expected planet keys with
convertible string values, the planet `create_planet` returns maps each key to
the right primitive type: `suns`, `moons`, `diameter_km` and `population` are
int, `orbital_period_days` is float, `gravity_std` is the converted gravity
value, and `climate` and `terrain` are lists split on `", "`. -/
theorem C7_create_planet (data : Dict)
    (hkeys : ∀ k ∈ planet_keys, ∃ v, dictGet data k = .ok v)
    (s1 s2 s3 s4 s5 s6 s7 s8 : String) (n1 n2 n3 n4 : Int) (qo : Rat)
    (hsuns : dictGet data "suns" = .ok (.str s1))
    (hsuns1 : convert_to_none (.str s1) = .str s1) (hsuns2 : pyInt (.str s1) = .ok n1)
    (hmoons : dictGet data "moons" = .ok (.str s2))
    (hmoons1 : convert_to_none (.str s2) = .str s2) (hmoons2 : pyInt (.str s2) = .ok n2)
    (hdiam : dictGet data "diameter" = .ok (.str s3))
    (hdiam1 : convert_to_none (.str s3) = .str s3) (hdiam2 : pyInt (.str s3) = .ok n3)
    (hpop : dictGet data "population" = .ok (.str s4))
    (hpop1 : convert_to_none (.str s4) = .str s4) (hpop2 : pyInt (.str s4) = .ok n4)
    (horb : dictGet data "orbital_period" = .ok (.str s5))
    (horb1 : convert_to_none (.str s5) = .str s5) (horb2 : pyFloat (.str s5) = .ok qo)
    (hgrav : dictGet data "gravity" = .ok (.str s6))
    (hgrav1 : convert_to_none (.str s6) = .str s6)
    (hclim : dictGet data "climate" = .ok (.str s7))
    (hclim1 : convert_to_none (.str s7) = .str s7)
    (hterr : dictGet data "terrain" = .ok (.str s8))
    (hterr1 : convert_to_none (.str s8) = .str s8) :
    ∃ p, create_planet data = .ok p ∧
      attrGet p "suns" = .ok (.int n1) ∧
      attrGet p "moons" = .ok (.int n2) ∧
      attrGet p "diameter_km" = .ok (.int n3) ∧
      attrGet p "population" = .ok (.int n4) ∧
      attrGet p "orbital_period_days" = .ok (.float qo) ∧
      attrGet p "gravity_std" = .ok (convert_gravity_value (.str s6)) ∧
      attrGet p "climate" = .ok (.list (strSplitOn s7 ", ")) ∧
      attrGet p "terrain" = .ok (.list (strSplitOn s8 ", ")) := by
  have hnd : planet_keys.Nodup := by decide
  obtain ⟨d2, hd2⟩ := convertLoop_ok (fun k v => .ok (planetConvertField k v)) planet_keys data
    hnd (fun k hk => by
      obtain ⟨v, hv⟩ := hkeys k hk
      exact ⟨v, planetConvertField k v, hv, rfl⟩)
  have hfacts := convertLoop_ok_get _ _ data d2 hnd hd2
  have hpresent : ∀ k ∈ planet_keys, ∃ v, dictGet d2 k = .ok v := by
    intro k hk
    obtain ⟨v, w, _, _, hg⟩ := hfacts k hk
    exact ⟨w, hg⟩
  obtain ⟨vU, wU, hvU, hfU, hgU⟩ := hfacts "url" (by decide)
  obtain ⟨vN, wN, hvN, hfN, hgN⟩ := hfacts "name" (by decide)
  obtain ⟨p2, hp2set, hpres, htrack⟩ :=
    planetSetattrGo_track planet_keys d2 (Planet_init wU wN) hpresent
  refine ⟨p2, bind_eq_ok_iff.mpr ⟨d2, hd2, bind_eq_ok_iff.mpr ⟨wU, hgU,
    bind_eq_ok_iff.mpr ⟨wN, hgN, hp2set⟩⟩⟩, ?_, ?_, ?_, ?_, ?_, ?_, ?_, ?_⟩
  · obtain ⟨v, w, hv, hf, hg⟩ := hfacts "suns" (by decide)
    have hveq : v = .str s1 := Except.ok.inj (hv.symm.trans hsuns)
    subst hveq
    have hw : planetConvertField "suns" (.str s1) = w := Except.ok.inj hf
    rw [planetConvertField_int "suns" s1 n1 (Or.inl rfl) hsuns1 hsuns2] at hw
    rw [htrack "suns" "suns" w (by decide) (by decide) (by decide) hg, ← hw]
    rfl
  · obtain ⟨v, w, hv, hf, hg⟩ := hfacts "moons" (by decide)
    have hveq : v = .str s2 := Except.ok.inj (hv.symm.trans hmoons)
    subst hveq
    have hw : planetConvertField "moons" (.str s2) = w := Except.ok.inj hf
    rw [planetConvertField_int "moons" s2 n2 (Or.inr (Or.inl rfl)) hmoons1 hmoons2] at hw
    rw [htrack "moons" "moons" w (by decide) (by decide) (by decide) hg, ← hw]
    rfl
  · obtain ⟨v, w, hv, hf, hg⟩ := hfacts "diameter" (by decide)
    have hveq : v = .str s3 := Except.ok.inj (hv.symm.trans hdiam)
    subst hveq
    have hw : planetConvertField "diameter" (.str s3) = w := Except.ok.inj hf
    rw [planetConvertField_int "diameter" s3 n3 (Or.inr (Or.inr (Or.inl rfl))) hdiam1 hdiam2] at hw
    rw [htrack "diameter_km" "diameter" w (by decide) (by decide) (by decide) hg, ← hw]
    rfl
  · obtain ⟨v, w, hv, hf, hg⟩ := hfacts "population" (by decide)
    have hveq : v = .str s4 := Except.ok.inj (hv.symm.trans hpop)
    subst hveq
    have hw : planetConvertField "population" (.str s4) = w := Except.ok.inj hf
    rw [planetConvertField_int "population" s4 n4 (Or.inr (Or.inr (Or.inr rfl))) hpop1 hpop2] at hw
    rw [htrack "population" "population" w (by decide) (by decide) (by decide) hg, ← hw]
    rfl
  · obtain ⟨v, w, hv, hf, hg⟩ := hfacts "orbital_period" (by decide)
    have hveq : v = .str s5 := Except.ok.inj (hv.symm.trans horb)
    subst hveq
    have hw : planetConvertField "orbital_period" (.str s5) = w := Except.ok.inj hf
    rw [planetConvertField_plain "orbital_period" (.str s5) (by decide) (by decide) (by decide)
      (by decide) (by decide) (by decide) (by decide) (by decide), horb1] at hw
    rw [htrack "orbital_period_days" "orbital_period" w (by decide) (by decide) (by decide) hg,
      ← hw]
    show Except.ok (convert_to_float (.str s5)) = _
    rw [convert_to_float_of_ok _ qo horb2]
  · obtain ⟨v, w, hv, hf, hg⟩ := hfacts "gravity" (by decide)
    have hveq : v = .str s6 := Except.ok.inj (hv.symm.trans hgrav)
    subst hveq
    have hw : planetConvertField "gravity" (.str s6) = w := Except.ok.inj hf
    rw [planetConvertField_gravity s6 hgrav1] at hw
    rw [htrack "gravity_std" "gravity" w (by decide) (by decide) (by decide) hg, ← hw]
    rfl
  · obtain ⟨v, w, hv, hf, hg⟩ := hfacts "climate" (by decide)
    have hveq : v = .str s7 := Except.ok.inj (hv.symm.trans hclim)
    subst hveq
    have hw : planetConvertField "climate" (.str s7) = w := Except.ok.inj hf
    rw [planetConvertField_list "climate" s7 (Or.inl rfl) hclim1] at hw
    rw [htrack "climate" "climate" w (by decide) (by decide) (by decide) hg, ← hw]
    rfl
  · obtain ⟨v, w, hv, hf, hg⟩ := hfacts "terrain" (by decide)
    have hveq : v = .str s8 := Except.ok.inj (hv.symm.trans hterr)
    subst hveq
    have hw : planetConvertField "terrain" (.str s8) = w := Except.ok.inj hf
    rw [planetConvertField_list "terrain" s8 (Or.inr rfl) hterr1] at hw
    rw [htrack "terrain" "terrain" w (by decide) (by decide) (by decide) hg, ← hw]
    rfl

def c7PlanetData : Dict :=
  [("url", .str "u2"), ("name", .str "Tatooine"), ("region", .str "Outer Rim"),
   ("sector", .str "Arkanis"), ("suns", .str "2"), ("moons", .str "3"),
   ("orbital_period", .str "304.0"), ("diameter", .str "10465"),
   ("gravity", .str "1 standard"), ("climate", .str "hot, arid"),
   ("terrain", .str "desert, canyons"), ("population", .str "200000")]

/-- Witness for `C7_create_planet` at a fully concrete planet dictionary. -/
theorem C7_create_planet_witness :
    ∃ p, create_planet c7PlanetData = .ok p ∧
      attrGet p "suns" = .ok (.int 2) ∧
      attrGet p "moons" = .ok (.int 3) ∧
      attrGet p "diameter_km" = .ok (.int 10465) ∧
      attrGet p "population" = .ok (.int 200000) ∧
      attrGet p "orbital_period_days" = .ok (.float 304) ∧
      attrGet p "gravity_std" = .ok (convert_gravity_value (.str "1 standard")) ∧
      attrGet p "climate" = .ok (.list (strSplitOn "hot, arid" ", ")) ∧
      attrGet p "terrain" = .ok (.list (strSplitOn "desert, canyons" ", ")) := by
  refine C7_create_planet c7PlanetData ?_ "2" "3" "10465" "200000" "304.0" "1 standard"
    "hot, arid" "desert, canyons" 2 3 10465 200000 304
    ?_ ?_ ?_ ?_ ?_ ?_ ?_ ?_ ?_ ?_ ?_ ?_ ?_ ?_ ?_ ?_ ?_ ?_ ?_ ?_ ?_
  · intro k hk
    fin_cases hk <;> exact ⟨_, rfl⟩
  all_goals decide

/-- When `planets = Option.none`, the `setattr` loop of `create_person` never
returns normally once `"homeworld"` is among the remaining keys: looking up a
key may fail, the SWAPI lookup may fail, and otherwise the unconditional
`planets[12]` subscript raises `TypeError` on `None` (lines 572-574). -/
theorem personSetattrGo_planets_none (swapi : PyVal → Except String Dict)
    (ks : List String) (data : Dict) (p : Obj) (hmem : "homeworld" ∈ ks) :
    ∃ e, personSetattrGo swapi Option.none ks data p = .error e := by
  induction ks generalizing p with
  | nil => exact absurd hmem (List.not_mem_nil _)
  | cons k ks ih =>
    cases hv : dictGet data k with
    | error e =>
      exact ⟨e, by simp [personSetattrGo, hv, exceptBind_error]⟩
    | ok v =>
      by_cases h1 : k = "height"
      · subst h1
        have hm2 : "homeworld" ∈ ks := by
          rcases List.mem_cons.mp hmem with he | hmm
          · exact absurd he (by decide)
          · exact hmm
        obtain ⟨e, he⟩ := ih (objSet p "height_m" (.v (convert_to_float v))) hm2
        exact ⟨e, by simp [personSetattrGo, hv, exceptBind_ok, he]⟩
      · by_cases h2 : k = "mass"
        · subst h2
          have hm2 : "homeworld" ∈ ks := by
            rcases List.mem_cons.mp hmem with he | hmm
            · exact absurd he (by decide)
            · exact hmm
          obtain ⟨e, he⟩ := ih (objSet p "mass_kg" (.v (convert_to_float v))) hm2
          exact ⟨e, by simp [personSetattrGo, hv, exceptBind_ok, he]⟩
        · by_cases h3 : k = "homeworld"
          · subst h3
            cases hs : swapi v with
            | error e =>
              exact ⟨e, by simp [personSetattrGo, hv, hs, exceptBind_ok, exceptBind_error]⟩
            | ok tat =>
              exact ⟨"TypeError: 'NoneType' object is not subscriptable",
                by simp [personSetattrGo, hv, hs, exceptBind_ok, exceptBind_error]⟩
          · have hm2 : "homeworld" ∈ ks := by
              rcases List.mem_cons.mp hmem with he | hmm
              · exact absurd he.symm h3
              · exact hmm
            obtain ⟨e, he⟩ := ih (objSet p k (.v v)) hm2
            exact ⟨e, by simp [personSetattrGo, hv, h1, h2, h3, exceptBind_ok, he]⟩

/-- Claim C8: calling `create_person` without the optional `planets` argument
(so with its declared default `planets = None`) never returns a `Person`: for
every SWAPI oracle and every input dictionary the call raises an unhandled
exception, because at the latest the homeworld-enrichment step unconditionally
subscripts `planets[12]`, a `TypeError` on `None`.  In particular this holds
whenever the `homeworld` value is not converted to `None`, the situation the
claim describes. -/
theorem C8_create_person_planets_none (swapi : PyVal → Except String Dict) (data : Dict) :
    ∃ e, create_person swapi data Option.none = .error e := by
  cases hd : convertLoop (fun k v => .ok (personConvertField k v)) person_keys data with
  | error e => exact ⟨e, by simp [create_person, hd, exceptBind_error]⟩
  | ok d =>
    cases hu : dictGet d "url" with
    | error e => exact ⟨e, by simp [create_person, hd, hu, exceptBind_ok, exceptBind_error]⟩
    | ok url =>
      cases hn : dictGet d "name" with
      | error e =>
        exact ⟨e, by simp [create_person, hd, hu, hn, exceptBind_ok, exceptBind_error]⟩
      | ok name =>
        cases hb : dictGet d "birth_year" with
        | error e =>
          exact ⟨e, by simp [create_person, hd, hu, hn, hb, exceptBind_ok, exceptBind_error]⟩
        | ok birth_year =>
          cases hf : dictGet d "force_sensitive" with
          | error e =>
            exact ⟨e,
              by simp [create_person, hd, hu, hn, hb, hf, exceptBind_ok, exceptBind_error]⟩
          | ok fs =>
            obtain ⟨e, he⟩ := personSetattrGo_planets_none swapi person_keys d
              (Person_init url name birth_year fs) (by decide)
            exact ⟨e, by simp [create_person, hd, hu, hn, hb, hf, exceptBind_ok, he]⟩

/- ### Lemmas for `get_most_viewed_episode` / `get_least_viewed_episode`
(claims C1 and C2) -/

theorem has_viewer_data_eq (ep : Dict) (v : PyVal)
    (hv : dictGet ep "episode_us_viewers_mm" = .ok v) :
    has_viewer_data ep =
      .ok (match convert_to_float v with | .float _ => true | _ => false) := by
  unfold has_viewer_data
  rw [hv]
  rfl

theorem hvd_none (ep : Dict) (hv : dictGet ep "episode_us_viewers_mm" = .ok PyVal.none) :
    has_viewer_data ep = .ok false :=
  (has_viewer_data_eq ep _ hv).trans rfl

theorem hvd_float (ep : Dict) (q : Rat)
    (hv : dictGet ep "episode_us_viewers_mm" = .ok (.float q)) :
    has_viewer_data ep = .ok true :=
  (has_viewer_data_eq ep _ hv).trans rfl

theorem listGet_of_idx {α : Type} (xs : List α) (k : Nat) (x : α) (h : xs[k]? = some x) :
    listGet xs k = .ok x := by
  induction xs generalizing k with
  | nil => simp at h
  | cons a l ih =>
    cases k with
    | zero =>
      have ha : a = x := by simpa using h
      rw [← ha]
      rfl
    | succ k2 =>
      have h2 : l[k2]? = some x := by simpa using h
      exact ih k2 h2

/-- Invariant of the scan of `get_most_viewed_episode`: if every episode's
`'episode_us_viewers_mm'` value is `None` or a float and the running best is a
float `m` recorded at index `i`, the scan returns a float best `m2` at index
`i2` that either keeps the incoming state or picks the first strictly better
float in the remaining episodes, and `m2` bounds every float in the remaining
episodes, earliest index winning ties among strict improvements. -/
theorem viewedGoGt_spec : ∀ (eps : List Dict),
    (∀ ep ∈ eps, ∃ v, dictGet ep "episode_us_viewers_mm" = .ok v ∧
      (v = PyVal.none ∨ ∃ q, v = PyVal.float q)) →
    ∀ (n : Nat) (m : Rat) (i : Nat),
    ∃ m2 i2, viewedGo pyGt eps n (.float m) i = .ok (.float m2, i2) ∧
      ((m2 = m ∧ i2 = i) ∨
        (m < m2 ∧ ∃ k ep2, eps[k]? = some ep2 ∧ i2 = n + k ∧
          dictGet ep2 "episode_us_viewers_mm" = .ok (.float m2))) ∧
      (∀ k ep2 q, eps[k]? = some ep2 →
        dictGet ep2 "episode_us_viewers_mm" = .ok (.float q) →
        q ≤ m2 ∧ (m < q → q = m2 → i2 ≤ n + k)) := by
  intro eps
  induction eps with
  | nil =>
    intro _ n m i
    exact ⟨m, i, rfl, Or.inl ⟨rfl, rfl⟩, fun k ep2 q hk => by simp at hk⟩
  | cons ep rest ih =>
    intro hall n m i
    have ihr := ih (fun ep2 h2 => hall ep2 (List.mem_cons_of_mem ep h2))
    obtain ⟨v, hv, hcase⟩ := hall ep (List.mem_cons_self ep rest)
    rcases hcase with rfl | ⟨q, rfl⟩
    · -- the episode has no viewer data and is skipped
      have hhvd := hvd_none ep hv
      have hstep : viewedGo pyGt (ep :: rest) n (.float m) i
          = viewedGo pyGt rest (n + 1) (.float m) i := by
        simp [viewedGo, hhvd, exceptBind_ok]
      obtain ⟨m2, i2, hrun, hdisj, hbound⟩ := ihr (n + 1) m i
      refine ⟨m2, i2, hstep.trans hrun, ?_, ?_⟩
      · rcases hdisj with h | ⟨hlt, k, ep2, hget, hi2, hdg⟩
        · exact Or.inl h
        · exact Or.inr ⟨hlt, k + 1, ep2, by simpa using hget, by omega, hdg⟩
      · intro k ep2 q2 hget hdg
        cases k with
        | zero =>
          have he : ep = ep2 := by simpa using hget
          subst he
          rw [hv] at hdg
          simp at hdg
        | succ k2 =>
          have hget2 : rest[k2]? = some ep2 := by simpa using hget
          have hb := hbound k2 ep2 q2 hget2 hdg
          exact ⟨hb.1, fun hmq hqm => by have := hb.2 hmq hqm; omega⟩
    · -- the episode has a float value q
      have hhvd := hvd_float ep q hv
      have hcmp : pyGt (convert_to_float (.float q)) (.float m) = .ok (decide (m < q)) := rfl
      by_cases hmq : m < q
      · -- strict improvement: the state is updated to (q, n)
        have hstep : viewedGo pyGt (ep :: rest) n (.float m) i
            = viewedGo pyGt rest (n + 1) (.float q) n := by
          simp [viewedGo, hhvd, hv, hcmp, exceptBind_ok, decide_eq_true hmq]
        obtain ⟨m2, i2, hrun, hdisj, hbound⟩ := ihr (n + 1) q n
        refine ⟨m2, i2, hstep.trans hrun, ?_, ?_⟩
        · rcases hdisj with ⟨hm2, hi2⟩ | ⟨hlt, k, ep2, hget, hi2, hdg⟩
          · subst hm2; subst hi2
            exact Or.inr ⟨hmq, 0, ep, by simp, by omega, hv⟩
          · exact Or.inr ⟨lt_trans hmq hlt, k + 1, ep2, by simpa using hget, by omega, hdg⟩
        · intro k ep2 q2 hget hdg
          cases k with
          | zero =>
            have he : ep = ep2 := by simpa using hget
            subst he
            have hq2 : q2 = q := (PyVal.float.inj (Except.ok.inj (hv.symm.trans hdg))).symm
            subst hq2
            constructor
            · rcases hdisj with ⟨hm2, _⟩ | ⟨hlt, _⟩
              · exact le_of_eq hm2.symm
              · exact le_of_lt hlt
            · intro _ hqm2
              rcases hdisj with ⟨hm2, hi2⟩ | ⟨hlt, _⟩
              · omega
              · exact absurd (hqm2 ▸ hlt) (lt_irrefl _)
          | succ k2 =>
            have hget2 : rest[k2]? = some ep2 := by simpa using hget
            have hb := hbound k2 ep2 q2 hget2 hdg
            refine ⟨hb.1, fun hmq2 hqm2 => ?_⟩
            by_cases hqq2 : q < q2
            · have := hb.2 hqq2 hqm2; omega
            · have hq2le : q2 ≤ q := le_of_not_lt hqq2
              rcases hdisj with ⟨hm2, hi2⟩ | ⟨hlt, _⟩
              · omega
              · exact absurd (lt_of_lt_of_le hlt (hqm2 ▸ hq2le)) (lt_irrefl _)
      · -- no improvement: the state is kept
        have hstep : viewedGo pyGt (ep :: rest) n (.float m) i
            = viewedGo pyGt rest (n + 1) (.float m) i := by
          simp [viewedGo, hhvd, hv, hcmp, exceptBind_ok, decide_eq_false hmq]
        obtain ⟨m2, i2, hrun, hdisj, hbound⟩ := ihr (n + 1) m i
        refine ⟨m2, i2, hstep.trans hrun, ?_, ?_⟩
        · rcases hdisj with h | ⟨hlt, k, ep2, hget, hi2, hdg⟩
          · exact Or.inl h
          · exact Or.inr ⟨hlt, k + 1, ep2, by simpa using hget, by omega, hdg⟩
        · intro k ep2 q2 hget hdg
          cases k with
          | zero =>
            have he : ep = ep2 := by simpa using hget
            subst he
            have hq2 : q2 = q := (PyVal.float.inj (Except.ok.inj (hv.symm.trans hdg))).symm
            subst hq2
            refine ⟨?_, fun hmq2 _ => absurd hmq2 hmq⟩
            have hm_le : m ≤ m2 := by
              rcases hdisj with ⟨hm2, _⟩ | ⟨hlt, _⟩
              · exact le_of_eq hm2.symm
              · exact le_of_lt hlt
            exact le_trans (le_of_not_lt hmq) hm_le
          | succ k2 =>
            have hget2 : rest[k2]? = some ep2 := by simpa using hget
            have hb := hbound k2 ep2 q2 hget2 hdg
            exact ⟨hb.1, fun hmq2 hqm2 => by have := hb.2 hmq2 hqm2; omega⟩

def c1BadEps : List Dict :=
  [[("episode_us_viewers_mm", PyVal.none)], [("episode_us_viewers_mm", PyVal.float 2)]]

/-- Counterexample to claim C1 as stated: the second episode has viewer data
(2.0 million viewers), so the claimed behaviour is to return it; but because
`maxi` is initialized to the FIRST episode's raw value with no
`has_viewer_data` check, the comparison `2.0 > None` raises `TypeError`
instead. -/
theorem C1_counterexample :
    has_viewer_data [("episode_us_viewers_mm", PyVal.float 2)] = .ok true ∧
    get_most_viewed_episode c1BadEps =
      .error "TypeError: '>' not supported between the operand types" :=
  ⟨rfl, rfl⟩

/-- Claim C1 (amended): when every episode's `'episode_us_viewers_mm'` value is
either `None` or a float and the FIRST episode's value is a float,
`get_most_viewed_episode` returns an episode of the list whose viewership is a
float `qbest` that bounds the viewership of every episode carrying a float
value (episodes with `None` are ignored), and on ties the earliest such episode
is kept.  The original claim fails when the first episode lacks viewer data:
`maxi` starts as its raw value and the first comparison raises `TypeError`. -/
theorem C1_amended (e0 : Dict) (rest : List Dict) (q0 : Rat)
    (hall : ∀ ep ∈ e0 :: rest, ∃ v, dictGet ep "episode_us_viewers_mm" = .ok v ∧
      (v = PyVal.none ∨ ∃ q, v = PyVal.float q))
    (h0 : dictGet e0 "episode_us_viewers_mm" = .ok (.float q0)) :
    ∃ (ebest : Dict) (qbest : Rat), get_most_viewed_episode (e0 :: rest) = .ok ebest ∧
      ∃ (i : Nat), (e0 :: rest)[i]? = some ebest ∧
        dictGet ebest "episode_us_viewers_mm" = .ok (.float qbest) ∧
        ∀ (j : Nat) (ep2 : Dict) (q2 : Rat), (e0 :: rest)[j]? = some ep2 →
          dictGet ep2 "episode_us_viewers_mm" = .ok (.float q2) →
          q2 ≤ qbest ∧ (q2 = qbest → i ≤ j) := by
  obtain ⟨m2, i2, hrun, hdisj, hbound⟩ := viewedGoGt_spec (e0 :: rest) hall 0 q0 0
  have hidx : ∃ ebest, (e0 :: rest)[i2]? = some ebest ∧
      dictGet ebest "episode_us_viewers_mm" = .ok (.float m2) := by
    rcases hdisj with ⟨hm2, hi2⟩ | ⟨hlt, k, ep2, hget, hi2, hdg⟩
    · subst hm2; subst hi2
      exact ⟨e0, by simp, h0⟩
    · subst hi2
      exact ⟨ep2, by simpa using hget, hdg⟩
  obtain ⟨ebest, hget, hdg⟩ := hidx
  refine ⟨ebest, m2, ?_, i2, hget, hdg, ?_⟩
  · have h2 : listGet (e0 :: rest) i2 = .ok ebest := listGet_of_idx _ _ _ hget
    have h1 : listGet (e0 :: rest) 0 = .ok e0 := rfl
    simp [get_most_viewed_episode, h1, h0, hrun, h2, exceptBind_ok]
  · intro j ep2 q2 hj hdj
    have hb := hbound j ep2 q2 hj hdj
    refine ⟨hb.1, fun hq2 => ?_⟩
    by_cases hlt0 : q0 < q2
    · have := hb.2 hlt0 hq2; omega
    · have hq2le : q2 ≤ q0 := le_of_not_lt hlt0
      rcases hdisj with ⟨_, hi2⟩ | ⟨hltm, _⟩
      · omega
      · exact absurd (lt_of_lt_of_le hltm (hq2 ▸ hq2le)) (lt_irrefl _)

def c1GoodE0 : Dict := [("episode_us_viewers_mm", PyVal.float 1)]

def c1GoodE1 : Dict := [("episode_us_viewers_mm", PyVal.none)]

def c1GoodE2 : Dict := [("episode_us_viewers_mm", PyVal.float 3)]

/-- Witness for `C1_amended` on a concrete three-episode list (floats 1 and 3
with a data-less episode in between). -/
theorem C1_amended_witness :
    ∃ (ebest : Dict) (qbest : Rat),
      get_most_viewed_episode (c1GoodE0 :: [c1GoodE1, c1GoodE2]) = .ok ebest ∧
      ∃ (i : Nat), (c1GoodE0 :: [c1GoodE1, c1GoodE2])[i]? = some ebest ∧
        dictGet ebest "episode_us_viewers_mm" = .ok (.float qbest) ∧
        ∀ (j : Nat) (ep2 : Dict) (q2 : Rat), (c1GoodE0 :: [c1GoodE1, c1GoodE2])[j]? = some ep2 →
          dictGet ep2 "episode_us_viewers_mm" = .ok (.float q2) →
          q2 ≤ qbest ∧ (q2 = qbest → i ≤ j) := by
  refine C1_amended c1GoodE0 [c1GoodE1, c1GoodE2] 1 ?_ rfl
  intro ep hep
  fin_cases hep
  · exact ⟨_, rfl, Or.inr ⟨1, rfl⟩⟩
  · exact ⟨_, rfl, Or.inl rfl⟩
  · exact ⟨_, rfl, Or.inr ⟨3, rfl⟩⟩

/-- Invariant of the scan of `get_least_viewed_episode`, dual to
`viewedGoGt_spec`: the scan returns a float best `m2` at index `i2` that
either keeps the incoming state or picks a strictly smaller float in the
remaining episodes, and `m2` is a lower bound on every float in the remaining
episodes, earliest index winning ties among strict improvements. -/
theorem viewedGoLt_spec : ∀ (eps : List Dict),
    (∀ ep ∈ eps, ∃ v, dictGet ep "episode_us_viewers_mm" = .ok v ∧
      (v = PyVal.none ∨ ∃ q, v = PyVal.float q)) →
    ∀ (n : Nat) (m : Rat) (i : Nat),
    ∃ m2 i2, viewedGo pyLt eps n (.float m) i = .ok (.float m2, i2) ∧
      ((m2 = m ∧ i2 = i) ∨
        (m2 < m ∧ ∃ k ep2, eps[k]? = some ep2 ∧ i2 = n + k ∧
          dictGet ep2 "episode_us_viewers_mm" = .ok (.float m2))) ∧
      (∀ k ep2 q, eps[k]? = some ep2 →
        dictGet ep2 "episode_us_viewers_mm" = .ok (.float q) →
        m2 ≤ q ∧ (q < m → q = m2 → i2 ≤ n + k)) := by
  intro eps
  induction eps with
  | nil =>
    intro _ n m i
    exact ⟨m, i, rfl, Or.inl ⟨rfl, rfl⟩, fun k ep2 q hk => by simp at hk⟩
  | cons ep rest ih =>
    intro hall n m i
    have ihr := ih (fun ep2 h2 => hall ep2 (List.mem_cons_of_mem ep h2))
    obtain ⟨v, hv, hcase⟩ := hall ep (List.mem_cons_self ep rest)
    rcases hcase with rfl | ⟨q, rfl⟩
    · -- the episode has no viewer data and is skipped
      have hhvd := hvd_none ep hv
      have hstep : viewedGo pyLt (ep :: rest) n (.float m) i
          = viewedGo pyLt rest (n + 1) (.float m) i := by
        simp [viewedGo, hhvd, exceptBind_ok]
      obtain ⟨m2, i2, hrun, hdisj, hbound⟩ := ihr (n + 1) m i
      refine ⟨m2, i2, hstep.trans hrun, ?_, ?_⟩
      · rcases hdisj with h | ⟨hlt, k, ep2, hget, hi2, hdg⟩
        · exact Or.inl h
        · exact Or.inr ⟨hlt, k + 1, ep2, by simpa using hget, by omega, hdg⟩
      · intro k ep2 q2 hget hdg
        cases k with
        | zero =>
          have he : ep = ep2 := by simpa using hget
          subst he
          rw [hv] at hdg
          simp at hdg
        | succ k2 =>
          have hget2 : rest[k2]? = some ep2 := by simpa using hget
          have hb := hbound k2 ep2 q2 hget2 hdg
          exact ⟨hb.1, fun hmq hqm => by have := hb.2 hmq hqm; omega⟩
    · -- the episode has a float value q
      have hhvd := hvd_float ep q hv
      have hcmp : pyLt (convert_to_float (.float q)) (.float m) = .ok (decide (q < m)) := rfl
      by_cases hmq : q < m
      · -- strict improvement: the state is updated to (q, n)
        have hstep : viewedGo pyLt (ep :: rest) n (.float m) i
            = viewedGo pyLt rest (n + 1) (.float q) n := by
          simp [viewedGo, hhvd, hv, hcmp, exceptBind_ok, decide_eq_true hmq]
        obtain ⟨m2, i2, hrun, hdisj, hbound⟩ := ihr (n + 1) q n
        refine ⟨m2, i2, hstep.trans hrun, ?_, ?_⟩
        · rcases hdisj with ⟨hm2, hi2⟩ | ⟨hlt, k, ep2, hget, hi2, hdg⟩
          · subst hm2; subst hi2
            exact Or.inr ⟨hmq, 0, ep, by simp, by omega, hv⟩
          · exact Or.inr ⟨lt_trans hlt hmq, k + 1, ep2, by simpa using hget, by omega, hdg⟩
        · intro k ep2 q2 hget hdg
          cases k with
          | zero =>
            have he : ep = ep2 := by simpa using hget
            subst he
            have hq2 : q2 = q := (PyVal.float.inj (Except.ok.inj (hv.symm.trans hdg))).symm
            subst hq2
            constructor
            · rcases hdisj with ⟨hm2, _⟩ | ⟨hlt, _⟩
              · exact le_of_eq hm2
              · exact le_of_lt hlt
            · intro _ hqm2
              rcases hdisj with ⟨hm2, hi2⟩ | ⟨hlt, _⟩
              · omega
              · exact absurd (hqm2 ▸ hlt) (lt_irrefl _)
          | succ k2 =>
            have hget2 : rest[k2]? = some ep2 := by simpa using hget
            have hb := hbound k2 ep2 q2 hget2 hdg
            refine ⟨hb.1, fun hmq2 hqm2 => ?_⟩
            by_cases hqq2 : q2 < q
            · have := hb.2 hqq2 hqm2; omega
            · have hq2le : q ≤ q2 := le_of_not_lt hqq2
              rcases hdisj with ⟨hm2, hi2⟩ | ⟨hlt, _⟩
              · omega
              · exact absurd (lt_of_lt_of_le hlt (hqm2 ▸ hq2le)) (lt_irrefl _)
      · -- no improvement: the state is kept
        have hstep : viewedGo pyLt (ep :: rest) n (.float m) i
            = viewedGo pyLt rest (n + 1) (.float m) i := by
          simp [viewedGo, hhvd, hv, hcmp, exceptBind_ok, decide_eq_false hmq]
        obtain ⟨m2, i2, hrun, hdisj, hbound⟩ := ihr (n + 1) m i
        refine ⟨m2, i2, hstep.trans hrun, ?_, ?_⟩
        · rcases hdisj with h | ⟨hlt, k, ep2, hget, hi2, hdg⟩
          · exact Or.inl h
          · exact Or.inr ⟨hlt, k + 1, ep2, by simpa using hget, by omega, hdg⟩
        · intro k ep2 q2 hget hdg
          cases k with
          | zero =>
            have he : ep = ep2 := by simpa using hget
            subst he
            have hq2 : q2 = q := (PyVal.float.inj (Except.ok.inj (hv.symm.trans hdg))).symm
            subst hq2
            refine ⟨?_, fun hmq2 _ => absurd hmq2 hmq⟩
            have hm_le : m2 ≤ m := by
              rcases hdisj with ⟨hm2, _⟩ | ⟨hlt, _⟩
              · exact le_of_eq hm2
              · exact le_of_lt hlt
            exact le_trans hm_le (le_of_not_lt hmq)
          | succ k2 =>
            have hget2 : rest[k2]? = some ep2 := by simpa using hget
            have hb := hbound k2 ep2 q2 hget2 hdg
            exact ⟨hb.1, fun hmq2 hqm2 => by have := hb.2 hmq2 hqm2; omega⟩

def c2BadEps : List Dict :=
  [[("episode_us_viewers_mm", PyVal.none)], [("episode_us_viewers_mm", PyVal.float 1)]]

/-- Counterexample to claim C2 as stated: the second episode has viewer data
(1.0 million viewers), so the claimed behaviour is to return it; but because
`maxi` is initialized to the FIRST episode's raw value with no
`has_viewer_data` check, the comparison `1.0 < None` raises `TypeError`
instead. -/
theorem C2_counterexample :
    has_viewer_data [("episode_us_viewers_mm", PyVal.float 1)] = .ok true ∧
    get_least_viewed_episode c2BadEps =
      .error "TypeError: '<' not supported between the operand types" :=
  ⟨rfl, rfl⟩

/-- Claim C2 (amended): when every episode's `'episode_us_viewers_mm'` value is
either `None` or a float and the FIRST episode's value is a float,
`get_least_viewed_episode` returns an episode of the list whose viewership is a
float `qbest` that is a lower bound on the viewership of every episode carrying
a float value (episodes with `None` are ignored), and on ties the earliest such
episode is kept.  The original claim fails when the first episode lacks viewer
data: `maxi` starts as its raw value and the first comparison raises
`TypeError`. -/
theorem C2_amended (e0 : Dict) (rest : List Dict) (q0 : Rat)
    (hall : ∀ ep ∈ e0 :: rest, ∃ v, dictGet ep "episode_us_viewers_mm" = .ok v ∧
      (v = PyVal.none ∨ ∃ q, v = PyVal.float q))
    (h0 : dictGet e0 "episode_us_viewers_mm" = .ok (.float q0)) :
    ∃ (ebest : Dict) (qbest : Rat), get_least_viewed_episode (e0 :: rest) = .ok ebest ∧
      ∃ (i : Nat), (e0 :: rest)[i]? = some ebest ∧
        dictGet ebest "episode_us_viewers_mm" = .ok (.float qbest) ∧
        ∀ (j : Nat) (ep2 : Dict) (q2 : Rat), (e0 :: rest)[j]? = some ep2 →
          dictGet ep2 "episode_us_viewers_mm" = .ok (.float q2) →
          qbest ≤ q2 ∧ (q2 = qbest → i ≤ j) := by
  obtain ⟨m2, i2, hrun, hdisj, hbound⟩ := viewedGoLt_spec (e0 :: rest) hall 0 q0 0
  have hidx : ∃ ebest, (e0 :: rest)[i2]? = some ebest ∧
      dictGet ebest "episode_us_viewers_mm" = .ok (.float m2) := by
    rcases hdisj with ⟨hm2, hi2⟩ | ⟨hlt, k, ep2, hget, hi2, hdg⟩
    · subst hm2; subst hi2
      exact ⟨e0, by simp, h0⟩
    · subst hi2
      exact ⟨ep2, by simpa using hget, hdg⟩
  obtain ⟨ebest, hget, hdg⟩ := hidx
  refine ⟨ebest, m2, ?_, i2, hget, hdg, ?_⟩
  · have h2 : listGet (e0 :: rest) i2 = .ok ebest := listGet_of_idx _ _ _ hget
    have h1 : listGet (e0 :: rest) 0 = .ok e0 := rfl
    simp [get_least_viewed_episode, h1, h0, hrun, h2, exceptBind_ok]
  · intro j ep2 q2 hj hdj
    have hb := hbound j ep2 q2 hj hdj
    refine ⟨hb.1, fun hq2 => ?_⟩
    by_cases hlt0 : q2 < q0
    · have := hb.2 hlt0 hq2; omega
    · have hq2le : q0 ≤ q2 := le_of_not_lt hlt0
      rcases hdisj with ⟨_, hi2⟩ | ⟨hltm, _⟩
      · omega
      · exact absurd (lt_of_lt_of_le hltm (hq2 ▸ hq2le)) (lt_irrefl _)

def c2GoodE0 : Dict := [("episode_us_viewers_mm", PyVal.float 3)]

def c2GoodE1 : Dict := [("episode_us_viewers_mm", PyVal.none)]

def c2GoodE2 : Dict := [("episode_us_viewers_mm", PyVal.float 1)]

/-- Witness for `C2_amended` on a concrete three-episode list (floats 3 and 1
with a data-less episode in between). -/
theorem C2_amended_witness :
    ∃ (ebest : Dict) (qbest : Rat),
      get_least_viewed_episode (c2GoodE0 :: [c2GoodE1, c2GoodE2]) = .ok ebest ∧
      ∃ (i : Nat), (c2GoodE0 :: [c2GoodE1, c2GoodE2])[i]? = some ebest ∧
        dictGet ebest "episode_us_viewers_mm" = .ok (.float qbest) ∧
        ∀ (j : Nat) (ep2 : Dict) (q2 : Rat), (c2GoodE0 :: [c2GoodE1, c2GoodE2])[j]? = some ep2 →
          dictGet ep2 "episode_us_viewers_mm" = .ok (.float q2) →
          qbest ≤ q2 ∧ (q2 = qbest → i ≤ j) := by
  refine C2_amended c2GoodE0 [c2GoodE1, c2GoodE2] 3 ?_ rfl
  intro ep hep
  fin_cases hep
  · exact ⟨_, rfl, Or.inr ⟨3, rfl⟩⟩
  · exact ⟨_, rfl, Or.inl rfl⟩
  · exact ⟨_, rfl, Or.inr ⟨1, rfl⟩⟩
